import Mathlib

/-!
Verification development for the gio-dbustemplate binding/dispatch core
(`gdbus_ext.py`): a shallow embedding of its data model and operations,
followed by theorems about the embedded definitions.

Python dictionaries are embedded as insertion-ordered association lists,
Python functions are embedded as Lean functions (handlers that can raise
return `Except`), and the transport connection is embedded as the list of
signal emissions performed on it.
-/

namespace GDBus

/-- Python runtime values, as far as the dispatch layer inspects them.
`vari` is a `GLib.Variant` carrying its type string. -/
inductive Py where
  | int (n : Int)
  | str (s : String)
  | tup (elems : List Py)
  | list (elems : List Py)
  | dict (entries : List (String × Py))
  | vari (signature : String) (value : Py)
  | pynone

/-- `isinstance(x, tuple)` -/
def Py.isTuple : Py → Bool
  | .tup _ => true
  | _ => false

/-- A Python `dict` with string keys: an insertion-ordered association list. -/
abbrev Dict (α : Type) : Type := List (String × α)

/-- `k in d` / `d.get(k)`: lookup, `none` when the key is absent. -/
def dlookup {α : Type} : Dict α → String → Option α
  | [], _ => none
  | (ka, va) :: rest, k => if ka = k then some va else dlookup rest k

/-- `d[k] = v`: overwrite in place when the key exists, else append at the end. -/
def dinsert {α : Type} : Dict α → String → α → Dict α
  | [], k, v => [(k, v)]
  | (ka, va) :: rest, k, v =>
    if ka = k then (k, v) :: rest else (ka, va) :: dinsert rest k v

/-- The keys of a dict, in insertion order. -/
def dkeys {α : Type} (d : Dict α) : List String := d.map Prod.fst

/-- `str.split(sep)` for a one-character separator, on the character list. -/
def splitChar (sep : Char) : List Char → List (List Char)
  | [] => [[]]
  | c :: rest =>
    let r := splitChar sep rest
    if c = sep then [] :: r
    else
      match r with
      | h :: t => (c :: h) :: t
      | [] => [[c]]

/-- Python `str.capitalize`: first character upper-cased, the rest lower-cased. -/
def pyCapitalize : List Char → List Char
  | [] => []
  | c :: cs => c.toUpper :: cs.map Char.toLower

/-- The inner generator `_capitalize_parts` of `to_pascal_case`: words of
length below 2 are capitalized whole, longer words have `word[0].capitalize()`
prepended to the untouched remainder `word[1:]`. -/
def _capitalize_parts (words : List (List Char)) : List (List Char) :=
  words.map fun word =>
    if word.length < 2 then pyCapitalize word
    else pyCapitalize (word.take 1) ++ word.drop 1

/-- `to_pascal_case` on the character list: split on underscores, capitalize
each part, join with no separator. -/
def to_pascal_caseL (l : List Char) : List Char :=
  List.flatten (_capitalize_parts (splitChar '_' l))

/-- `gdbus_ext.to_pascal_case`. -/
def to_pascal_case (input_str : String) : String :=
  String.mk (to_pascal_caseL input_str.toList)

/-- `gdbus_ext.generate_name`. `func_name` models `func.__name__` (present
when the decorated object has a name). The third argument models the
`remove_prefix` keyword parameter, whose source default is `None`. -/
def generate_name (maybe_name : Option String) (func_name : Option String)
    (prefixToRemove : Option String) : Except String String :=
  match maybe_name with
  | some n => Except.ok n
  | none =>
    match func_name with
    | some basename =>
      let bl : List Char :=
        match prefixToRemove with
        | some p =>
          if p.toList.isPrefixOf basename.toList then
            basename.toList.drop p.toList.length
          else basename.toList
        | none => basename.toList
      Except.ok (String.mk (to_pascal_caseL bl))
    | none => Except.error ("the method decorated has no name and no name was given")

/-- The `Literal` union `_DBusHandlerType`. -/
inductive HandlerType where
  | method
  | signal
  | property
deriving DecidableEq

/-- The string value of a `_DBusHandlerType` literal. -/
def HandlerType.toStr : HandlerType → String
  | .method => "method"
  | .signal => "signal"
  | .property => "property"

/-- `DBusHandlerStandIn`, with the `DBusProperty` subclass fields inlined
(they are meaningful only when `type = property`). Handler functions are
tracked by identity (`funcId`, `setterId`). -/
structure StandIn where
  type : HandlerType
  name : String
  funcId : Nat
  interface : Option String
  emit_changed : Bool := true
  emit_with_value : Bool := true
  setterId : Option Nat := none
deriving DecidableEq

/-- `Method.__init__(name, interface)` followed by `Method.__call__(func)`.
The source passes no `remove_prefix` argument to `generate_name`. -/
def Method.call (name : Option String) (interface : Option String)
    (func_name : Option String) (funcId : Nat) : Except String StandIn := do
  let n ← generate_name name func_name none
  Except.ok { type := HandlerType.method, name := n, funcId := funcId, interface := interface }

/-- `Signal.__init__(name, interface)` followed by `Signal.__call__(func)`.
The source passes no `remove_prefix` argument to `generate_name`. -/
def Signal.call (name : Option String) (interface : Option String)
    (func_name : Option String) (funcId : Nat) : Except String StandIn := do
  let n ← generate_name name func_name none
  Except.ok { type := HandlerType.signal, name := n, funcId := funcId, interface := interface }

/-- `Property.__init__(name, interface, emit_changed, emit_with_value)`
followed by `Property.__call__(func)`. The source passes no `remove_prefix`
argument to `generate_name` (although the docstring claims a leading `get_`
is removed). -/
def Property.call (name : Option String) (interface : Option String)
    (emit_changed : Bool) (emit_with_value : Bool)
    (func_name : Option String) (funcId : Nat) : Except String StandIn := do
  let n ← generate_name name func_name none
  Except.ok { type := HandlerType.property, name := n, funcId := funcId,
              interface := interface, emit_changed := emit_changed,
              emit_with_value := emit_with_value, setterId := none }

/-- `Gio.DBusArgInfo`: only the type signature is consulted. -/
structure ArgInfo where
  signature : String
deriving DecidableEq

/-- `Gio.DBusMethodInfo`. -/
structure MethodInfo where
  name : String
  in_args : List ArgInfo
  out_args : List ArgInfo
deriving DecidableEq

/-- `Gio.DBusSignalInfo`. -/
structure SignalInfo where
  name : String
  args : List ArgInfo
deriving DecidableEq

/-- `Gio.DBusPropertyInfo`: only name and type signature are consulted. -/
structure PropertyInfo where
  name : String
  signature : String
deriving DecidableEq

/-- `Gio.DBusInterfaceInfo`, as produced by parsing the introspection XML. -/
structure InterfaceInfo where
  name : String
  methods : List MethodInfo
  signals : List SignalInfo
  properties : List PropertyInfo
deriving DecidableEq

/-- The per-kind outcome of the interface-info collection loop in
`DBusTemplate.__call__`: the `infos_*` nested dict and the `unique_*` map
(`_UniqueElementsType`; value `none` is the `_NotUnique` sentinel). -/
structure KindCatalog (β : Type) where
  infos : Dict (Dict β)
  unique : Dict (Option InterfaceInfo)

/-- One iteration of the inner member loop in `DBusTemplate.__call__`:
`infos_k[interface.name][m.name] = m`, and the uniqueness bookkeeping
(`if m.name not in unique_k: unique_k[m.name] = interface
else: unique_k[m.name] = _NotUnique`). -/
def catalogAddMember {β : Type} (nameOf : β → String) (iface : InterfaceInfo)
    (st : KindCatalog β) (m : β) : KindCatalog β :=
  { infos := dinsert st.infos iface.name
      (dinsert ((dlookup st.infos iface.name).getD []) (nameOf m) m),
    unique :=
      if (dlookup st.unique (nameOf m)).isNone then
        dinsert st.unique (nameOf m) (some iface)
      else dinsert st.unique (nameOf m) none }

/-- Processing one interface for one member kind in the collection loop of
`DBusTemplate.__call__`: `infos_k[interface.name] = {}`, then each member. -/
def catalogAddInterface {β : Type} (nameOf : β → String)
    (extract : InterfaceInfo → List β) (st : KindCatalog β)
    (iface : InterfaceInfo) : KindCatalog β :=
  (extract iface).foldl (catalogAddMember nameOf iface)
    { st with infos := dinsert st.infos iface.name [] }

/-- The full interface-collection loop of `DBusTemplate.__call__`, for one
member kind. (The source's single loop over the parsed interfaces updates the
method, signal and property tables independently; the embedding runs it once
per kind.) -/
def buildKind {β : Type} (nameOf : β → String)
    (extract : InterfaceInfo → List β)
    (interfaces : List InterfaceInfo) : KindCatalog β :=
  interfaces.foldl (catalogAddInterface nameOf extract) { infos := [], unique := [] }

/-- `collect_unassigned`: all `(interface name, member name)` pairs of a
nested info dict, in iteration order. -/
def collect_unassigned {β : Type} (infos : Dict (Dict β)) : List (String × String) :=
  infos.flatMap fun p => (p.2).map fun q => (p.1, q.1)

/-- The value stored in a runtime dispatch table by `process_standin`:
`(info, standin)` for properties, `(info, standin.func)` otherwise. -/
inductive Stored where
  | prop (s : StandIn)
  | func (funcId : Nat)
deriving DecidableEq

/-- The interface-resolution block at the top of `process_standin`
(source lines 401-412): an explicit interface is used as given, otherwise
the uniqueness map decides. -/
def resolve_interface (standin : StandIn) (unique : Dict (Option InterfaceInfo)) :
    Except String String :=
  match standin.interface with
  | some i => Except.ok i
  | none =>
    match dlookup unique standin.name with
    | none =>
      Except.error ("D-Bus " ++ standin.type.toStr ++ " " ++ standin.name ++
        " not defined in any interface")
    | some none =>
      Except.error ("Interface for D-Bus " ++ standin.type.toStr ++ " " ++ standin.name ++
        " could not be auto-detected since the " ++ standin.type.toStr ++
        " is defined in multiple interfaces. Specify the interface name manually")
    | some (some iface) => Except.ok iface.name

/-- `gdbus_ext.process_standin`. Returns the resolved interface name
together with the updated `unassigned` set and runtime table; raising
`TypeError` is modelled by the `Except.error` message. -/
def process_standin {β : Type} (standin : StandIn)
    (unassigned : List (String × String))
    (unique : Dict (Option InterfaceInfo))
    (infos : Dict (Dict β))
    (runtime_def : Option (Dict (Dict (β × Stored)))) :
    Except String (String × List (String × String) × Option (Dict (Dict (β × Stored)))) :=
  match resolve_interface standin unique with
  | Except.error e => Except.error e
  | Except.ok interface_name =>
    match dlookup infos interface_name with
    | none => Except.error ("D-Bus interface " ++ interface_name ++ " not defined")
    | some inner =>
      match dlookup inner standin.name with
      | none =>
        Except.error ("D-Bus " ++ standin.type.toStr ++ " " ++ standin.name ++
          " not defined for interface " ++ interface_name)
      | some info =>
        let ident : String × String := (interface_name, standin.name)
        if ident ∈ unassigned then
          let rd : Option (Dict (Dict (β × Stored))) :=
            match runtime_def with
            | none => none
            | some rd =>
              let stored : Stored :=
                if standin.type = HandlerType.property then Stored.prop standin
                else Stored.func standin.funcId
              some (dinsert rd interface_name
                (dinsert ((dlookup rd interface_name).getD []) standin.name (info, stored)))
          Except.ok (interface_name, unassigned.erase ident, rd)
        else
          Except.error ("D-Bus " ++ standin.type.toStr ++ " " ++ standin.name ++
            " has a handler method but is either not in the XML or there are multiple handlers defined for it in class")

/-- The mutable state of the member-scanning loop in `DBusTemplate.__call__`:
the three `unassigned_*` working sets, the two runtime tables stored on the
class, and the signal proxies installed by `setattr` (recorded by their
resolved `(interface, signal)` pair). -/
structure BindState where
  ua_methods : List (String × String)
  ua_signals : List (String × String)
  ua_properties : List (String × String)
  def_methods : Dict (Dict (MethodInfo × Stored))
  def_properties : Dict (Dict (PropertyInfo × Stored))
  signal_proxies : List (String × String)
deriving DecidableEq

/-- One iteration of the member-scanning loop of `DBusTemplate.__call__`
for a member that is a `DBusHandlerStandIn`. -/
def bindStep (catM : KindCatalog MethodInfo) (catS : KindCatalog SignalInfo)
    (catP : KindCatalog PropertyInfo) (st : BindState) (member : StandIn) :
    Except String BindState :=
  match member.type with
  | HandlerType.method =>
    match process_standin member st.ua_methods catM.unique catM.infos (some st.def_methods) with
    | Except.error e => Except.error e
    | Except.ok (_, ua, rd) =>
      Except.ok { st with ua_methods := ua, def_methods := rd.getD st.def_methods }
  | HandlerType.signal =>
    match process_standin member st.ua_signals catS.unique catS.infos none with
    | Except.error e => Except.error e
    | Except.ok (interface_name, ua, _) =>
      Except.ok { st with ua_signals := ua,
                          signal_proxies := st.signal_proxies ++ [(interface_name, member.name)] }
  | HandlerType.property =>
    match process_standin member st.ua_properties catP.unique catP.infos (some st.def_properties) with
    | Except.error e => Except.error e
    | Except.ok (_, ua, rd) =>
      Except.ok { st with ua_properties := ua, def_properties := rd.getD st.def_properties }

/-- The member-scanning loop of `DBusTemplate.__call__` over the class
dict entries that are stand-ins, in iteration order. -/
def bindFold (catM : KindCatalog MethodInfo) (catS : KindCatalog SignalInfo)
    (catP : KindCatalog PropertyInfo) :
    List StandIn → BindState → Except String BindState
  | [], st => Except.ok st
  | m :: rest, st =>
    match bindStep catM catS catP st m with
    | Except.error e => Except.error e
    | Except.ok st' => bindFold catM catS catP rest st'

/-- The messages of the three completeness checks at the end of
`DBusTemplate.__call__`, for a still-unassigned `(interface, member)` pair. -/
def missingMsg (t : HandlerType) (p : String × String) : String :=
  match t with
  | HandlerType.method =>
    "Missing handler for interface method \x27" ++ p.2 ++
      "\x27 from interface \x27" ++ p.1 ++ "\x27"
  | HandlerType.signal =>
    "Missing handler for interface signal \x27" ++ p.2 ++
      "\x27 from interface \x27" ++ p.1 ++ "\x27"
  | HandlerType.property =>
    "Missing handlers for interface property \x27" ++ p.2 ++
      "\x27 from interface \x27" ++ p.1 ++ "\x27"

/-- The starting state of the member scan in `DBusTemplate.__call__`:
the three unassigned sets seeded from the catalogs, empty tables. -/
def bindInit (interfaces : List InterfaceInfo) : BindState :=
  { ua_methods := collect_unassigned
      (buildKind MethodInfo.name InterfaceInfo.methods interfaces).infos,
    ua_signals := collect_unassigned
      (buildKind SignalInfo.name InterfaceInfo.signals interfaces).infos,
    ua_properties := collect_unassigned
      (buildKind PropertyInfo.name InterfaceInfo.properties interfaces).infos,
    def_methods := [], def_properties := [], signal_proxies := [] }

/-- The result of a successful `DBusTemplate.__call__`: the definitions
stored on the decorated class. -/
structure BindResult where
  interfaces : List InterfaceInfo
  def_methods : Dict (Dict (MethodInfo × Stored))
  def_properties : Dict (Dict (PropertyInfo × Stored))
  signal_proxies : List (String × String)
deriving DecidableEq

/-- `DBusTemplate.__call__(cls)` after the XML has been parsed into
`interfaces`: build the per-kind catalogs, seed the unassigned sets,
scan the class members, then run the three completeness checks (each
naming `next(iter(...))`, here the head of the remaining list). -/
def DBusTemplate.call (interfaces : List InterfaceInfo) (members : List StandIn) :
    Except String BindResult :=
  let catM := buildKind MethodInfo.name InterfaceInfo.methods interfaces
  let catS := buildKind SignalInfo.name InterfaceInfo.signals interfaces
  let catP := buildKind PropertyInfo.name InterfaceInfo.properties interfaces
  match bindFold catM catS catP members (bindInit interfaces) with
  | Except.error e => Except.error e
  | Except.ok st =>
    match st.ua_methods with
    | p :: _ => Except.error (missingMsg HandlerType.method p)
    | [] =>
      match st.ua_signals with
      | p :: _ => Except.error (missingMsg HandlerType.signal p)
      | [] =>
        match st.ua_properties with
        | p :: _ => Except.error (missingMsg HandlerType.property p)
        | [] =>
          Except.ok { interfaces := interfaces, def_methods := st.def_methods,
                      def_properties := st.def_properties,
                      signal_proxies := st.signal_proxies }

/-- One `connection.emit_signal(None, path, interface, signal, parameters)`
call observed on the transport. -/
structure Emission where
  path : String
  interface_name : String
  signal_name : String
  parameters : Py

/-- A registered object instance: user state `σ`
(`__dict__` contents the handlers read and write),
`__giodbustemplate__path__`, and the transport connection embedded as the
list of emissions performed so far. -/
structure Instance (σ : Type) where
  state : σ
  path : String
  emitted : List Emission

/-- `gdbus_ext.emit_signal`. -/
def emit_signal {σ : Type} (obj : Instance σ) (signal_name : String)
    (interface_name : String) (path : String) (parameters : Py) : Instance σ :=
  { obj with emitted := obj.emitted ++
      [{ path := path, interface_name := interface_name,
         signal_name := signal_name, parameters := parameters }] }

/-- `gdbus_ext.emit_properties_changed`: one `PropertiesChanged` signal on
`org.freedesktop.DBus.Properties` carrying the interface, the
changed-with-value dict and the invalidated name list. -/
def emit_properties_changed {σ : Type} (obj : Instance σ) (interface : String)
    (changed_properties : Dict Py) (invalidated_properties : List String) :
    Instance σ :=
  emit_signal obj "PropertiesChanged" "org.freedesktop.DBus.Properties" obj.path
    (Py.tup [Py.vari "s" (Py.str interface),
             Py.vari "a{sv}" (Py.dict changed_properties),
             Py.vari "as" (Py.list (invalidated_properties.map Py.str))])

/-- The runtime face of a bound `DBusProperty` descriptor: the resolved
interface, the notification flags, and the getter/optional setter handler
functions (which may raise). -/
structure DBusPropertyRT (σ : Type) where
  name : String
  interface : Option String
  emit_changed : Bool
  emit_with_value : Bool
  getter : σ → Except String Py
  setter_func : Option (σ → Py → Except String σ)

/-- The class's `__giodbustemplate__properties__` table. -/
abbrev PropTable (σ : Type) : Type := Dict (Dict (PropertyInfo × DBusPropertyRT σ))

/-- `DBusProperty.__get__` with a live instance: invoke the getter. -/
def DBusProperty.get {σ : Type} (prop : DBusPropertyRT σ) (st : σ) :
    Except String Py :=
  prop.getter st

/-- `DBusProperty.__set__`. A raised exception is the `Except.error` case
(its message), in which case nothing was emitted. On the success path the
setter runs first, then `properties[self.interface][self.name][0]` is looked
up, then the notification branch runs. -/
def DBusProperty.set {σ : Type} (prop : DBusPropertyRT σ)
    (properties : PropTable σ) (instOpt : Option (Instance σ)) (value : Py) :
    Except String (Instance σ) :=
  match instOpt with
  | none => Except.error ("TypeError")
  | some inst =>
    match prop.setter_func with
    | none => Except.error ("this property is read-only")
    | some setter =>
      match setter inst.state value with
      | Except.error e => Except.error e
      | Except.ok newState =>
        let inst' : Instance σ := { inst with state := newState }
        match prop.interface with
        | none => Except.error ("KeyError")
        | some interface =>
          match dlookup properties interface with
          | none => Except.error ("KeyError")
          | some inner =>
            match dlookup inner prop.name with
            | none => Except.error ("KeyError")
            | some (prop_info, _) =>
              if prop.emit_changed then
                if prop.emit_with_value then
                  Except.ok (emit_properties_changed inst' interface
                    (dinsert [] prop.name (Py.vari prop_info.signature value)) [])
                else
                  Except.ok (emit_properties_changed inst' interface [] [prop.name])
              else Except.ok inst'

/-- What the CPython interpreter state contributes to `on_method_call`:
whether `getattr(sys, "gettrace", None)` is not `None` — i.e. whether the
`sys` module has a `gettrace` attribute at all (in CPython it always does) —
and, separately, whether a trace hook is actually installed, which is what
the source comment says the check is for; the code never reads the latter. -/
structure SysState where
  gettrace_attr : Bool
  trace_hook_installed : Bool

/-- The reply handed to the `Gio.DBusMethodInvocation`. -/
inductive Reply where
  | dbus_error (interface_name : String) (message : String)
  | value (v : Option Py)

/-- The observable outcome of one `on_method_call` closure invocation:
the user state afterwards, the reply sent on the invocation (if any),
and whether an exception propagated out of the closure. -/
structure CallOutcome (σ : Type) where
  state : σ
  reply : Option Reply
  raised : Bool

/-- A bound method handler: may mutate the instance state and either
return a Python value or raise. -/
abbrev Handler (σ : Type) : Type := σ → List Py → σ × Except String Py

/-- `gdbus_ext.on_method_call`. A missing table entry would raise a
`KeyError` out of the closure before any reply is produced. -/
def on_method_call {σ : Type}
    (methods : Dict (Dict (MethodInfo × Handler σ))) (sys : SysState)
    (interface_name : String) (method_name : String)
    (parameters : List Py) (obj : σ) : CallOutcome σ :=
  match dlookup methods interface_name with
  | none => { state := obj, reply := none, raised := true }
  | some inner =>
    match dlookup inner method_name with
    | none => { state := obj, reply := none, raised := true }
    | some (method_info, method_func) =>
      let args := parameters
      match method_func obj args with
      | (obj', Except.error e) =>
        { state := obj',
          reply := some (Reply.dbus_error interface_name e),
          raised := sys.gettrace_attr }
      | (obj', Except.ok result) =>
        let result' : Py := if result.isTuple then result else Py.tup [result]
        let out_args : String :=
          "(" ++ String.join (method_info.out_args.map ArgInfo.signature) ++ ")"
        if out_args ≠ "()" then
          { state := obj', reply := some (Reply.value (some (Py.vari out_args result'))),
            raised := false }
        else
          { state := obj', reply := some (Reply.value none), raised := false }

/-- `gdbus_ext.on_get_property`: look up the descriptor, call the getter,
wrap the value in the property's declared signature. A failed lookup or a
raising getter propagates. -/
def on_get_property {σ : Type} (properties : PropTable σ)
    (interface_name : String) (property_name : String) (st : σ) :
    Except String Py :=
  match dlookup properties interface_name with
  | none => Except.error ("KeyError")
  | some inner =>
    match dlookup inner property_name with
    | none => Except.error ("KeyError")
    | some (prop_info, prop) =>
      match DBusProperty.get prop st with
      | Except.error e => Except.error e
      | Except.ok value => Except.ok (Py.vari prop_info.signature value)

/-- `gdbus_ext.on_set_property`: look up the descriptor and delegate to
`DBusProperty.__set__`; reports `True` unless the set raised. -/
def on_set_property {σ : Type} (properties : PropTable σ)
    (interface_name : String) (property_name : String)
    (inst : Instance σ) (value : Py) : Except String (Instance σ × Bool) :=
  match dlookup properties interface_name with
  | none => Except.error ("KeyError")
  | some inner =>
    match dlookup inner property_name with
    | none => Except.error ("KeyError")
    | some (_, prop) =>
      match DBusProperty.set prop properties (some inst) value with
      | Except.error e => Except.error e
      | Except.ok inst' => Except.ok (inst', true)

/-- The tuple elements of a signal handler's return value:
a tuple's elements, or the single value wrapped in a one-tuple. -/
def tupleElems (v : Py) : List Py :=
  match v with
  | Py.tup elems => elems
  | _ => [v]

/-- `gdbus_ext.handle_signal_method`: the proxy installed for a signal
emitter. `func` is the decorated method (returning `none` to emit the
original arguments unchanged, or a value overriding them); an
`Except.error` result is an exception propagating out of the proxy
(the wrong-arity `AssertionError` included), with nothing emitted. -/
def handle_signal_method {σ : Type} (info : SignalInfo)
    (func : σ → List Py → Option Py) (interface_name : String)
    (obj : Instance σ) (original_arguments : List Py) :
    Except String (Instance σ) :=
  let values : Except String (List Py) :=
    match func obj.state original_arguments with
    | some maybe_new_values =>
      let elems := tupleElems maybe_new_values
      if elems.length ≠ original_arguments.length then
        Except.error ("signal emitter returned invalid number of arguments.")
      else Except.ok elems
    | none => Except.ok original_arguments
  match values with
  | Except.error e => Except.error e
  | Except.ok values =>
    let parameters : List Py :=
      (values.zip info.args).map fun p => Py.vari (p.2).signature p.1
    Except.ok (emit_signal obj info.name interface_name obj.path (Py.tup parameters))

/-- The `for prop_name in properties` loop of
`DBusTemplate.properties_changed`, threading the
`(properties_with_values, invalidated_properties)` accumulator. -/
def pc_loop {σ : Type} (infos : PropTable σ) (interface : String)
    (info : Dict (PropertyInfo × DBusPropertyRT σ)) (st : σ) :
    List String → (Dict Py × List String) → Except String (Dict Py × List String)
  | [], acc => Except.ok acc
  | prop_name :: rest, acc =>
    match dlookup info prop_name with
    | none =>
      Except.error ("The D-Bus interface " ++ interface ++
        " does not define a property " ++ prop_name)
    | some (_, prop) =>
      if prop.emit_changed then
        if prop.emit_with_value then
          match on_get_property infos interface prop_name st with
          | Except.error e => Except.error e
          | Except.ok value =>
            pc_loop infos interface info st rest (dinsert acc.1 prop_name value, acc.2)
        else pc_loop infos interface info st rest (acc.1, acc.2 ++ [prop_name])
      else pc_loop infos interface info st rest acc

/-- `DBusTemplate.properties_changed(obj, interface, properties)`.
`decorated` models `hasattr(obj.__class__, "__giodbustemplate__interfaces__")`.
An `Except.error` is a raised exception; the single `PropertiesChanged`
emission only happens after the whole loop succeeded. -/
def DBusTemplate.properties_changed {σ : Type} (decorated : Bool)
    (infos : PropTable σ) (inst : Instance σ) (interface : String)
    (properties : List String) : Except String (Instance σ) :=
  if ¬ decorated then
    Except.error ("properties_changed must be called for object decorated with DBusTemplate")
  else
    match dlookup infos interface with
    | none =>
      Except.error ("The object does not implement D-Bus interface " ++ interface)
    | some info =>
      match pc_loop infos interface info inst.state properties ([], []) with
      | Except.error e => Except.error e
      | Except.ok (properties_with_values, invalidated_properties) =>
        Except.ok (emit_properties_changed inst interface
          properties_with_values invalidated_properties)

/-- The registration-relevant attributes of an object instance:
whether its class was decorated with `DBusTemplate` (i.e. has
`__giodbustemplate__interfaces__`), and the instance's
`__giodbustemplate__connection__` / `__giodbustemplate__path__`
attributes (absent before the first registration). Connections are
identified by a numeric id. -/
structure RegObject where
  decorated : Bool
  connection : Option Nat
  path : Option String
deriving DecidableEq

/-- `DBusTemplate.register_object(connection, name, path, obj)`. On success
it returns the updated object together with the bus name it owned and the
`(object path, interface name)` registrations made on the connection. -/
def DBusTemplate.register_object (interfaces : List InterfaceInfo)
    (connection : Nat) (name : String) (path : String) (obj : RegObject) :
    Except String (RegObject × String × List (String × String)) :=
  if ¬ obj.decorated then
    Except.error ("register_object must be called for object decorated with DBusTemplate")
  else if (obj.connection).isSome then
    Except.error ("register_object can only be called once for an object")
  else
    let obj' : RegObject :=
      { obj with connection := some connection, path := some path }
    Except.ok (obj', name, interfaces.map fun interface => (path, interface.name))

/-! Statement vocabulary: derived notions used to phrase the theorems. -/

/-- The `(interface name, member name)` pairs a schema declares for one
member kind, in declaration order. -/
def declaredPairs {β : Type} (nameOf : β → String)
    (extract : InterfaceInfo → List β)
    (interfaces : List InterfaceInfo) : List (String × String) :=
  interfaces.flatMap fun i => (extract i).map fun m => (i.name, nameOf m)

/-- The per-interface member dict built by the collection loop. -/
def membersDict {β : Type} (nameOf : β → String) (ms : List β) : Dict β :=
  ms.foldl (fun d m => dinsert d (nameOf m) m) []

/-- The pure resolution outcome of `process_standin` for one stand-in
against one kind's catalog: `some (interface, member)` when interface
resolution and both existence checks succeed, `none` when any of them
errors (projection of `process_standin`, independent of the bijection
bookkeeping). -/
def resolveFull {β : Type} (standin : StandIn)
    (unique : Dict (Option InterfaceInfo)) (infos : Dict (Dict β)) :
    Option (String × String) :=
  match resolve_interface standin unique with
  | Except.error _ => none
  | Except.ok interface_name =>
    match dlookup infos interface_name with
    | none => none
    | some inner =>
      match dlookup inner standin.name with
      | none => none
      | some _ => some (interface_name, standin.name)

/-- The catalog entry a stand-in resolves to, consulting the catalog of its
own member kind. -/
def standinTarget (catM : KindCatalog MethodInfo) (catS : KindCatalog SignalInfo)
    (catP : KindCatalog PropertyInfo) (s : StandIn) : Option (String × String) :=
  match s.type with
  | HandlerType.method => resolveFull s catM.unique catM.infos
  | HandlerType.signal => resolveFull s catS.unique catS.infos
  | HandlerType.property => resolveFull s catP.unique catP.infos

/-- Classification used by the bulk-notification claim: a requested property
name goes into the changed-with-value half of the event. -/
def includedWithValue {σ : Type} (info : Dict (PropertyInfo × DBusPropertyRT σ))
    (n : String) : Bool :=
  match dlookup info n with
  | some (_, p) => p.emit_changed && p.emit_with_value
  | none => false

/-- Classification used by the bulk-notification claim: a requested property
name goes into the invalidated half of the event. -/
def includedInvalidated {σ : Type} (info : Dict (PropertyInfo × DBusPropertyRT σ))
    (n : String) : Bool :=
  match dlookup info n with
  | some (_, p) => p.emit_changed && !p.emit_with_value
  | none => false

/-- The declared member pairs of one handler kind. -/
def declaredOfKind (interfaces : List InterfaceInfo) :
    HandlerType → List (String × String)
  | HandlerType.method =>
    declaredPairs MethodInfo.name InterfaceInfo.methods interfaces
  | HandlerType.signal =>
    declaredPairs SignalInfo.name InterfaceInfo.signals interfaces
  | HandlerType.property =>
    declaredPairs PropertyInfo.name InterfaceInfo.properties interfaces

/-- The catalog entries the stand-ins of one kind resolve to, in class
order; `none` when any of them fails to resolve. -/
def kindTargets (catM : KindCatalog MethodInfo) (catS : KindCatalog SignalInfo)
    (catP : KindCatalog PropertyInfo) (k : HandlerType) :
    List StandIn → Option (List (String × String))
  | [] => some []
  | s :: rest =>
    if s.type = k then
      match standinTarget catM catS catP s with
      | none => none
      | some p =>
        match kindTargets catM catS catP k rest with
        | none => none
        | some tl => some (p :: tl)
    else kindTargets catM catS catP k rest

/-- The pairs already bound for one kind: the keys of the runtime tables
for methods and properties, the installed proxies for signals. -/
def boundOfKind (st : BindState) : HandlerType → List (String × String)
  | HandlerType.method => collect_unassigned st.def_methods
  | HandlerType.signal => st.signal_proxies
  | HandlerType.property => collect_unassigned st.def_properties

/-- The pairs a finished binding stores for one kind. -/
def boundOfKind' (b : BindResult) : HandlerType → List (String × String)
  | HandlerType.method => collect_unassigned b.def_methods
  | HandlerType.signal => b.signal_proxies
  | HandlerType.property => collect_unassigned b.def_properties

/-- The still-unassigned pairs of one kind. -/
def uaOfKind (st : BindState) : HandlerType → List (String × String)
  | HandlerType.method => st.ua_methods
  | HandlerType.signal => st.ua_signals
  | HandlerType.property => st.ua_properties

/-- The invariant of the member-scanning loop: per kind, the processed
stand-ins all resolved, the bound pairs are exactly their targets, and
together with the still-unassigned pairs they partition the declared
members. -/
def BindInv (catM : KindCatalog MethodInfo) (catS : KindCatalog SignalInfo)
    (catP : KindCatalog PropertyInfo) (interfaces : List InterfaceInfo)
    (processed : List StandIn) (st : BindState) : Prop :=
  ∀ k : HandlerType, ∃ tl,
    kindTargets catM catS catP k processed = some tl ∧
    (boundOfKind st k).Perm tl ∧
    (uaOfKind st k ++ boundOfKind st k).Perm (declaredOfKind interfaces k)

/-! Concrete fixtures used to evaluate the definitions in witnesses. -/

/-- A concrete bound property descriptor on a unit-state instance. -/
def sampleProp (ec ev : Bool) : DBusPropertyRT Unit :=
  { name := "Volume", interface := some "org.example.I", emit_changed := ec,
    emit_with_value := ev, getter := fun _ => Except.ok Py.pynone,
    setter_func := some fun _ _ => Except.ok () }

/-- A concrete property table holding `sampleProp`. -/
def samplePropTable (ec ev : Bool) : PropTable Unit :=
  [("org.example.I",
    [("Volume", ({ name := "Volume", signature := "d" }, sampleProp ec ev))])]

/-- A concrete registered unit-state instance with no emissions yet. -/
def sampleInst : Instance Unit :=
  { state := (), path := "/p", emitted := [] }

/-- A concrete method dispatch table: `Fail` always raises, `Ping` returns
`None` and declares no outputs. -/
def sampleMethods : Dict (Dict (MethodInfo × Handler Unit)) :=
  [("org.example.I",
    [("Fail", ({ name := "Fail", in_args := [], out_args := [] },
       fun s _ => (s, Except.error ("boom")))),
     ("Ping", ({ name := "Ping", in_args := [], out_args := [] },
       fun s _ => (s, Except.ok Py.pynone)))])]

/-- CPython's interpreter state when no debugger is attached: the `sys`
module still has a `gettrace` attribute, but no trace hook is installed. -/
def cpythonNoDebugger : SysState :=
  { gettrace_attr := true, trace_hook_installed := false }

/-- A read-only unit-state property descriptor with the given name and
flags, declared on `org.example.I`. -/
def samplePropNamed (nm : String) (ec ev : Bool) : DBusPropertyRT Unit :=
  { name := nm, interface := some "org.example.I", emit_changed := ec,
    emit_with_value := ev, getter := fun _ => Except.ok (Py.int 5),
    setter_func := none }

/-- A property table with three properties covering all notification
flags: `A` notifies with value, `B` notifies invalidated, `C` is silent. -/
def sampleBulkTable : PropTable Unit :=
  [("org.example.I",
    [("A", ({ name := "A", signature := "i" }, samplePropNamed "A" true true)),
     ("B", ({ name := "B", signature := "i" }, samplePropNamed "B" true false)),
     ("C", ({ name := "C", signature := "i" }, samplePropNamed "C" false true))])]

/-- A concrete interface declaring methods `Shared` and `OnlyA`. -/
def ifaceA : InterfaceInfo :=
  { name := "org.example.A",
    methods := [{ name := "Shared", in_args := [], out_args := [] },
                { name := "OnlyA", in_args := [], out_args := [] }],
    signals := [], properties := [] }

/-- A concrete interface declaring methods `Shared` and `OnlyB`. -/
def ifaceB : InterfaceInfo :=
  { name := "org.example.B",
    methods := [{ name := "Shared", in_args := [], out_args := [] },
                { name := "OnlyB", in_args := [], out_args := [] }],
    signals := [], properties := [] }

/-- A two-interface schema with one ambiguous method name. -/
def sampleInterfaces : List InterfaceInfo := [ifaceA, ifaceB]

/-- A method stand-in with the given member name and optional interface. -/
def standinFor (nm : String) (intf : Option String) : StandIn :=
  { type := HandlerType.method, name := nm, funcId := 0, interface := intf }

/-- An interface declaring one method, one signal and one property. -/
def ifaceFull : InterfaceInfo :=
  { name := "org.example.F",
    methods := [{ name := "Do", in_args := [], out_args := [] }],
    signals := [{ name := "Changed", args := [] }],
    properties := [{ name := "Count", signature := "i" }] }

/-- A method handler stand-in for `Do`. -/
def memberDo : StandIn :=
  { type := HandlerType.method, name := "Do", funcId := 1, interface := none }

/-- A signal emitter stand-in for `Changed`. -/
def memberChanged : StandIn :=
  { type := HandlerType.signal, name := "Changed", funcId := 2, interface := none }

/-- A property getter stand-in for `Count`. -/
def memberCount : StandIn :=
  { type := HandlerType.property, name := "Count", funcId := 3, interface := none }

/-- A fully-implementing member list for `ifaceFull`. -/
def fullMembers : List StandIn := [memberDo, memberChanged, memberCount]

/-- The binding `DBusTemplate.__call__` produces for `fullMembers`. -/
def fullBindResult : BindResult :=
  { interfaces := [ifaceFull],
    def_methods := [("org.example.F",
      [("Do", ({ name := "Do", in_args := [], out_args := [] }, Stored.func 1))])],
    def_properties := [("org.example.F",
      [("Count", ({ name := "Count", signature := "i" }, Stored.prop memberCount))])],
    signal_proxies := [("org.example.F", "Changed")] }

/-- A one-output method whose handler returns the bare value. -/
def sampleEcho1 : Dict (Dict (MethodInfo × Handler Unit)) :=
  [("org.example.I",
    [("Echo", ({ name := "Echo", in_args := [{ signature := "s" }],
                 out_args := [{ signature := "s" }] },
       fun s _ => (s, Except.ok (Py.str "hi"))))])]

/-- The same one-output method, with the handler returning a one-tuple. -/
def sampleEcho2 : Dict (Dict (MethodInfo × Handler Unit)) :=
  [("org.example.I",
    [("Echo", ({ name := "Echo", in_args := [{ signature := "s" }],
                 out_args := [{ signature := "s" }] },
       fun s _ => (s, Except.ok (Py.tup [Py.str "hi"]))))])]

/-- A two-output method whose handler returns an ordered pair. -/
def samplePair : Dict (Dict (MethodInfo × Handler Unit)) :=
  [("org.example.I",
    [("Pair", ({ name := "Pair", in_args := [],
                 out_args := [{ signature := "x" }, { signature := "s" }] },
       fun s _ => (s, Except.ok (Py.tup [Py.int 1, Py.str "a"]))))])]

/-! ## Theorems -/

/-- C10: a handler declared without an explicit name is bound under the
PascalCase conversion of the decorated function's name (split on
underscores, each part's first letter capitalized, the remainder
preserved); in particular `Property` strips no leading `get_`, because
`Property.__call__` never supplies `generate_name`'s prefix-removal
parameter — even though `generate_name` would strip the prefix if that
parameter were supplied. -/
theorem C10_pascal_case_names (iface : Option String) (ec ev : Bool)
    (fname : String) (fid : Nat) :
    Property.call none iface ec ev (some fname) fid =
      Except.ok { type := HandlerType.property, name := to_pascal_case fname,
                  funcId := fid, interface := iface, emit_changed := ec,
                  emit_with_value := ev, setterId := none }
    ∧ Method.call none iface (some fname) fid =
      Except.ok { type := HandlerType.method, name := to_pascal_case fname,
                  funcId := fid, interface := iface }
    ∧ Signal.call none iface (some fname) fid =
      Except.ok { type := HandlerType.signal, name := to_pascal_case fname,
                  funcId := fid, interface := iface }
    ∧ generate_name none (some ("get_" ++ fname)) (some "get_") =
      Except.ok (to_pascal_case fname)
    ∧ to_pascal_case "get_position" = "GetPosition" := by
  refine ⟨rfl, rfl, rfl, ?_, rfl⟩
  have h1 : ("get_" ++ fname).toList = "get_".toList ++ fname.toList := rfl
  have hp : "get_".toList.isPrefixOf ("get_" ++ fname).toList = true := by
    rw [h1]
    exact List.isPrefixOf_iff_prefix.mpr (List.prefix_append _ _)
  simp [generate_name, hp, h1, List.drop_left, to_pascal_case]

/-- C9: registration happens at most once per instance: the first
`register_object` call on an unbound decorated instance binds the
connection and the object path, any call on an already-bound instance
fails with the "can only be called once" error, and a successful call
forces the instance to have been unbound — so an instance is never rebound
or migrated to a different connection or path. -/
theorem C9_register_object_once (interfaces interfaces2 : List InterfaceInfo)
    (conn conn2 : Nat) (name name2 path path2 : String) (obj : RegObject)
    (hdec : obj.decorated = true) :
    (obj.connection = none →
      DBusTemplate.register_object interfaces conn name path obj =
        Except.ok ({ obj with connection := some conn, path := some path },
                   name, interfaces.map fun i => (path, i.name)))
    ∧ (∀ c, obj.connection = some c →
        DBusTemplate.register_object interfaces2 conn2 name2 path2 obj =
          Except.error ("register_object can only be called once for an object"))
    ∧ (∀ r, DBusTemplate.register_object interfaces conn name path obj = Except.ok r →
        obj.connection = none ∧ r.1.connection = some conn ∧ r.1.path = some path
        ∧ DBusTemplate.register_object interfaces2 conn2 name2 path2 r.1 =
            Except.error ("register_object can only be called once for an object")) := by
  refine ⟨?_, ?_, ?_⟩
  · intro h
    simp [DBusTemplate.register_object, hdec, h]
  · intro c h
    simp [DBusTemplate.register_object, hdec, h]
  · intro r h
    cases hc : obj.connection with
    | some c => simp [DBusTemplate.register_object, hdec, hc] at h
    | none =>
      simp [DBusTemplate.register_object, hdec, hc] at h
      refine ⟨rfl, ?_, ?_, ?_⟩ <;>
        simp [← h, DBusTemplate.register_object, hdec]

/-- C4: writing a property that was bound with a getter but no setter
always fails with the read-only `TypeError`, for any instance and value,
and returns no updated instance — in particular no property-changed
notification is emitted by the failed attempt. -/
theorem C4_readonly_property_set (σ : Type) (prop : DBusPropertyRT σ)
    (tbl : PropTable σ) (inst : Instance σ) (value : Py)
    (h : prop.setter_func = none) :
    DBusProperty.set prop tbl (some inst) value =
      Except.error ("this property is read-only")
    ∧ ∀ inst', DBusProperty.set prop tbl (some inst) value ≠ Except.ok inst' := by
  constructor
  · simp [DBusProperty.set, h]
  · intro inst'
    simp [DBusProperty.set, h]

/-- Witness for C9 at a concrete instance: the first registration binds
connection 1 and path `/org/example`, a second attempt on the bound
instance fails. -/
theorem C9_register_object_once_witness :
    DBusTemplate.register_object [] 1 "org.example.Bus" "/org/example"
        { decorated := true, connection := none, path := none } =
      Except.ok ({ decorated := true, connection := some 1, path := some "/org/example" },
                 "org.example.Bus", [])
    ∧ DBusTemplate.register_object [] 2 "org.example.Bus" "/other"
        { decorated := true, connection := some 1, path := some "/org/example" } =
      Except.error ("register_object can only be called once for an object") := by
  constructor
  · exact (C9_register_object_once [] [] 1 2 "org.example.Bus" "b" "/org/example" "/p2"
      { decorated := true, connection := none, path := none } rfl).1 rfl
  · exact ((C9_register_object_once [] [] 2 2 "org.example.Bus" "org.example.Bus"
      "/other" "/other"
      { decorated := true, connection := some 1, path := some "/org/example" } rfl).2.1) 1 rfl

/-- Witness for C4: a concrete getter-only property rejects a write. -/
theorem C4_readonly_property_set_witness :
    DBusProperty.set
      { name := "Count", interface := some "org.example.I", emit_changed := true,
        emit_with_value := true, getter := fun (_ : Unit) => Except.ok (Py.int 3),
        setter_func := none }
      [] (some { state := (), path := "/p", emitted := [] }) (Py.int 7) =
      Except.error ("this property is read-only") :=
  (C4_readonly_property_set Unit _ [] _ (Py.int 7) rfl).1

/-- C5: a successful set of a writable property notifies according to the
descriptor's flags: with `emit_changed` and `emit_with_value` both set it
appends exactly one `PropertiesChanged` emission carrying the new value for
this single property; with `emit_changed` set and `emit_with_value` unset it
appends exactly one emission listing only this property as invalidated and
carrying no value; with `emit_changed` unset it appends no emission at all. -/
theorem C5_set_notification (σ : Type) (prop : DBusPropertyRT σ)
    (tbl : PropTable σ) (inst : Instance σ) (value : Py)
    (setter : σ → Py → Except String σ) (newState : σ) (iface : String)
    (inner : Dict (PropertyInfo × DBusPropertyRT σ)) (prop_info : PropertyInfo)
    (entry : DBusPropertyRT σ)
    (hs : prop.setter_func = some setter)
    (hrun : setter inst.state value = Except.ok newState)
    (hi : prop.interface = some iface)
    (hl1 : dlookup tbl iface = some inner)
    (hl2 : dlookup inner prop.name = some (prop_info, entry)) :
    (prop.emit_changed = true → prop.emit_with_value = true →
      DBusProperty.set prop tbl (some inst) value =
        Except.ok { state := newState,
                    path := inst.path,
                    emitted := inst.emitted ++
                      [{ path := inst.path,
                         interface_name := "org.freedesktop.DBus.Properties",
                         signal_name := "PropertiesChanged",
                         parameters := Py.tup [Py.vari "s" (Py.str iface),
                           Py.vari "a{sv}"
                             (Py.dict [(prop.name, Py.vari prop_info.signature value)]),
                           Py.vari "as" (Py.list [])] }] })
    ∧ (prop.emit_changed = true → prop.emit_with_value = false →
      DBusProperty.set prop tbl (some inst) value =
        Except.ok { state := newState,
                    path := inst.path,
                    emitted := inst.emitted ++
                      [{ path := inst.path,
                         interface_name := "org.freedesktop.DBus.Properties",
                         signal_name := "PropertiesChanged",
                         parameters := Py.tup [Py.vari "s" (Py.str iface),
                           Py.vari "a{sv}" (Py.dict []),
                           Py.vari "as" (Py.list [Py.str prop.name])] }] })
    ∧ (prop.emit_changed = false →
      DBusProperty.set prop tbl (some inst) value =
        Except.ok { state := newState, path := inst.path, emitted := inst.emitted }) := by
  refine ⟨?_, ?_, ?_⟩
  · intro h1 h2
    simp [DBusProperty.set, hs, hrun, hi, hl1, hl2, h1, h2,
      emit_properties_changed, emit_signal, dinsert]
  · intro h1 h2
    simp [DBusProperty.set, hs, hrun, hi, hl1, hl2, h1, h2,
      emit_properties_changed, emit_signal, dinsert]
  · intro h1
    simp [DBusProperty.set, hs, hrun, hi, hl1, hl2, h1]

/-- Witness for C5 at concrete properties, covering all three flag
combinations. -/
theorem C5_set_notification_witness :
    DBusProperty.set (sampleProp true true) (samplePropTable true true)
        (some sampleInst) (Py.int 7) =
      Except.ok { state := (),
                  path := "/p",
                  emitted := [{ path := "/p",
                                interface_name := "org.freedesktop.DBus.Properties",
                                signal_name := "PropertiesChanged",
                                parameters := Py.tup [Py.vari "s" (Py.str "org.example.I"),
                                  Py.vari "a{sv}" (Py.dict [("Volume", Py.vari "d" (Py.int 7))]),
                                  Py.vari "as" (Py.list [])] }] }
    ∧ DBusProperty.set (sampleProp true false) (samplePropTable true false)
        (some sampleInst) (Py.int 7) =
      Except.ok { state := (),
                  path := "/p",
                  emitted := [{ path := "/p",
                                interface_name := "org.freedesktop.DBus.Properties",
                                signal_name := "PropertiesChanged",
                                parameters := Py.tup [Py.vari "s" (Py.str "org.example.I"),
                                  Py.vari "a{sv}" (Py.dict []),
                                  Py.vari "as" (Py.list [Py.str "Volume"])] }] }
    ∧ DBusProperty.set (sampleProp false true) (samplePropTable false true)
        (some sampleInst) (Py.int 7) =
      Except.ok { state := (), path := "/p", emitted := [] } := by
  refine ⟨?_, ?_, ?_⟩
  · exact (C5_set_notification Unit (sampleProp true true) (samplePropTable true true)
      sampleInst (Py.int 7) _ () "org.example.I" _ _ (sampleProp true true)
      rfl rfl rfl rfl rfl).1 rfl rfl
  · exact (C5_set_notification Unit (sampleProp true false) (samplePropTable true false)
      sampleInst (Py.int 7) _ () "org.example.I" _ _ (sampleProp true false)
      rfl rfl rfl rfl rfl).2.1 rfl rfl
  · exact (C5_set_notification Unit (sampleProp false true) (samplePropTable false true)
      sampleInst (Py.int 7) _ () "org.example.I" _ _ (sampleProp false true)
      rfl rfl rfl rfl rfl).2.2 rfl

/-- C7: programmatic signal emission: a handler returning `None` emits the
declared arguments unchanged; a handler returning a same-length tuple emits
those values instead; a handler returning a different-length tuple raises
the fatal `AssertionError` — which propagates instead of becoming a
protocol reply — and nothing is emitted. -/
theorem C7_signal_override (σ : Type) (info : SignalInfo)
    (func : σ → List Py → Option Py) (interface_name : String)
    (obj : Instance σ) (original_arguments : List Py)
    (_hlen : original_arguments.length = info.args.length) :
    (func obj.state original_arguments = none →
      handle_signal_method info func interface_name obj original_arguments =
        Except.ok (emit_signal obj info.name interface_name obj.path
          (Py.tup ((original_arguments.zip info.args).map
            fun p => Py.vari (p.2).signature p.1))))
    ∧ (∀ vs, func obj.state original_arguments = some (Py.tup vs) →
        vs.length = original_arguments.length →
        handle_signal_method info func interface_name obj original_arguments =
          Except.ok (emit_signal obj info.name interface_name obj.path
            (Py.tup ((vs.zip info.args).map fun p => Py.vari (p.2).signature p.1))))
    ∧ (∀ vs, func obj.state original_arguments = some (Py.tup vs) →
        vs.length ≠ original_arguments.length →
        handle_signal_method info func interface_name obj original_arguments =
          Except.error ("signal emitter returned invalid number of arguments.")
        ∧ ∀ r, handle_signal_method info func interface_name obj original_arguments ≠
            Except.ok r) := by
  refine ⟨?_, ?_, ?_⟩
  · intro h
    simp [handle_signal_method, h]
  · intro vs h hl
    simp [handle_signal_method, h, tupleElems, hl]
  · intro vs h hl
    constructor
    · simp [handle_signal_method, h, tupleElems, hl]
    · intro r
      simp [handle_signal_method, h, tupleElems, hl]

/-- Witness for C7 on a concrete two-argument signal. -/
theorem C7_signal_override_witness :
    handle_signal_method
        { name := "Seeked", args := [{ signature := "x" }, { signature := "s" }] }
        (fun (_ : Unit) _ => none) "org.example.I" sampleInst
        [Py.int 4, Py.str "a"] =
      Except.ok { state := (),
                  path := "/p",
                  emitted := [{ path := "/p", interface_name := "org.example.I",
                                signal_name := "Seeked",
                                parameters := Py.tup [Py.vari "x" (Py.int 4),
                                  Py.vari "s" (Py.str "a")] }] }
    ∧ handle_signal_method
        { name := "Seeked", args := [{ signature := "x" }, { signature := "s" }] }
        (fun (_ : Unit) _ => some (Py.tup [Py.int 9, Py.str "b"])) "org.example.I"
        sampleInst [Py.int 4, Py.str "a"] =
      Except.ok { state := (),
                  path := "/p",
                  emitted := [{ path := "/p", interface_name := "org.example.I",
                                signal_name := "Seeked",
                                parameters := Py.tup [Py.vari "x" (Py.int 9),
                                  Py.vari "s" (Py.str "b")] }] }
    ∧ handle_signal_method
        { name := "Seeked", args := [{ signature := "x" }, { signature := "s" }] }
        (fun (_ : Unit) _ => some (Py.tup [Py.int 9])) "org.example.I"
        sampleInst [Py.int 4, Py.str "a"] =
      Except.error ("signal emitter returned invalid number of arguments.") := by
  refine ⟨?_, ?_, ?_⟩
  · exact (C7_signal_override Unit _ _ "org.example.I" sampleInst
      [Py.int 4, Py.str "a"] rfl).1 rfl
  · exact (C7_signal_override Unit _ _ "org.example.I" sampleInst
      [Py.int 4, Py.str "a"] rfl).2.1 [Py.int 9, Py.str "b"] rfl rfl
  · exact ((C7_signal_override Unit _ _ "org.example.I" sampleInst
      [Py.int 4, Py.str "a"] rfl).2.2 [Py.int 9] rfl (by decide)).1

/-- C1 (code bug): with CPython's `sys` — which always has a `gettrace`
attribute — and no trace hook installed, a handler that raises does get a
protocol error reply tagged with the calling interface and carrying the
exception's message, and a subsequent call on an unrelated method of the
same object still succeeds; but `on_method_call` nevertheless re-raises
the exception out of the dispatch closure, because the source tests
`getattr(sys, "gettrace", None) is not None` (attribute presence — always
true) where its own comment says the re-raise is meant only for an
attached debugger (`sys.gettrace()` being non-`None`). -/
theorem C1_error_reply_always_reraises :
    (on_method_call sampleMethods cpythonNoDebugger
        "org.example.I" "Fail" [] ()).reply =
      some (Reply.dbus_error "org.example.I" "boom")
    ∧ (on_method_call sampleMethods cpythonNoDebugger
        "org.example.I" "Fail" [] ()).raised = true
    ∧ cpythonNoDebugger.trace_hook_installed = false
    ∧ (on_method_call sampleMethods cpythonNoDebugger
        "org.example.I" "Ping" [] ()).reply = some (Reply.value none)
    ∧ (on_method_call sampleMethods cpythonNoDebugger
        "org.example.I" "Ping" [] ()).raised = false :=
  ⟨rfl, rfl, rfl, rfl, rfl⟩

/-- A Python tuple value is a tuple. -/
theorem Py.isTuple_tup (l : List Py) : (Py.tup l).isTuple = true := rfl

/-- A parenthesized nonempty signature string is never the empty tuple
signature. -/
theorem paren_join_ne (j : String) (h : j ≠ "") :
    ("(" ++ j ++ ")" : String) ≠ "()" := by
  intro he
  apply h
  have hd : ("(" ++ j ++ ")" : String).data = ("()" : String).data :=
    congrArg String.data he
  have hd2 : '(' :: (j.data ++ [')']) = ['(', ')'] := by
    simpa [String.data_append] using hd
  have h2 : j.data ++ [')'] = [')'] := by
    exact (List.cons.injEq _ _ _ _).mp hd2 |>.2
  have h3 : j.data = [] :=
    List.length_eq_zero.mp (by simpa using congrArg List.length h2)
  cases j with
  | mk data =>
    simp only [String.data] at h3
    subst h3
    rfl

/-- C8: reply shaping for successful inbound method calls: with one
declared output the handler may return the value directly or a one-element
tuple and both give the same outcome; with zero declared outputs any
return value produces the empty reply; with declared outputs the returned
tuple is wrapped, as an ordered tuple, in the declared output signature. -/
theorem C8_reply_shapes (σ : Type) (sys : SysState)
    (interface_name method_name : String) (args : List Py) (obj : σ) :
    (∀ (methods1 methods2 : Dict (Dict (MethodInfo × Handler σ)))
       (inner1 inner2 : Dict (MethodInfo × Handler σ))
       (info : MethodInfo) (f1 f2 : Handler σ) (obj' : σ) (v : Py),
       dlookup methods1 interface_name = some inner1 →
       dlookup inner1 method_name = some (info, f1) →
       dlookup methods2 interface_name = some inner2 →
       dlookup inner2 method_name = some (info, f2) →
       info.out_args.length = 1 →
       v.isTuple = false →
       f1 obj args = (obj', Except.ok v) →
       f2 obj args = (obj', Except.ok (Py.tup [v])) →
       on_method_call methods1 sys interface_name method_name args obj =
         on_method_call methods2 sys interface_name method_name args obj)
    ∧ (∀ (methods : Dict (Dict (MethodInfo × Handler σ)))
       (inner : Dict (MethodInfo × Handler σ))
       (info : MethodInfo) (f : Handler σ) (obj' : σ) (r : Py),
       dlookup methods interface_name = some inner →
       dlookup inner method_name = some (info, f) →
       info.out_args = [] →
       f obj args = (obj', Except.ok r) →
       on_method_call methods sys interface_name method_name args obj =
         { state := obj', reply := some (Reply.value none), raised := false })
    ∧ (∀ (methods : Dict (Dict (MethodInfo × Handler σ)))
       (inner : Dict (MethodInfo × Handler σ))
       (info : MethodInfo) (f : Handler σ) (obj' : σ) (vs : List Py),
       dlookup methods interface_name = some inner →
       dlookup inner method_name = some (info, f) →
       String.join (info.out_args.map ArgInfo.signature) ≠ "" →
       f obj args = (obj', Except.ok (Py.tup vs)) →
       on_method_call methods sys interface_name method_name args obj =
         { state := obj',
           reply := some (Reply.value (some (Py.vari
             ("(" ++ String.join (info.out_args.map ArgInfo.signature) ++ ")")
             (Py.tup vs)))),
           raised := false }) := by
  refine ⟨?_, ?_, ?_⟩
  · intro methods1 methods2 inner1 inner2 info f1 f2 obj' v
      hm1 hi1 hm2 hi2 _hout hv hf1 hf2
    have hv' : (if v.isTuple = true then v else Py.tup [v]) = Py.tup [v] := by
      rw [hv]
      simp
    simp [on_method_call, hm1, hi1, hm2, hi2, hf1, hf2, hv', Py.isTuple_tup]
  · intro methods inner info f obj' r hm hi hout hf
    simp [on_method_call, hm, hi, hf, hout, String.join]
  · intro methods inner info f obj' vs hm hi hout hf
    have hne := paren_join_ne (String.join (info.out_args.map ArgInfo.signature)) hout
    simp [on_method_call, hm, hi, hf, hne, Py.isTuple_tup]

/-- Witness for C8 at concrete methods: bare value and one-tuple coincide;
a no-output method gets the empty reply; a two-output method's tuple is
wrapped in the declared signature. -/
theorem C8_reply_shapes_witness :
    on_method_call sampleEcho1 cpythonNoDebugger "org.example.I" "Echo" [] () =
      on_method_call sampleEcho2 cpythonNoDebugger "org.example.I" "Echo" [] ()
    ∧ on_method_call sampleMethods cpythonNoDebugger "org.example.I" "Ping" [] () =
      { state := (), reply := some (Reply.value none), raised := false }
    ∧ on_method_call samplePair cpythonNoDebugger "org.example.I" "Pair" [] () =
      { state := (),
        reply := some (Reply.value (some (Py.vari "(xs)"
          (Py.tup [Py.int 1, Py.str "a"])))),
        raised := false } := by
  refine ⟨?_, ?_, ?_⟩
  · exact (C8_reply_shapes Unit cpythonNoDebugger "org.example.I" "Echo" [] ()).1
      sampleEcho1 sampleEcho2 _ _ _ _ _ () (Py.str "hi")
      rfl rfl rfl rfl rfl rfl rfl rfl
  · exact (C8_reply_shapes Unit cpythonNoDebugger "org.example.I" "Ping" [] ()).2.1
      sampleMethods _ _ _ () Py.pynone rfl rfl rfl rfl
  · exact (C8_reply_shapes Unit cpythonNoDebugger "org.example.I" "Pair" [] ()).2.2
      samplePair _ _ _ () [Py.int 1, Py.str "a"] rfl rfl (by decide) rfl

/-- Inserting a fresh key appends it at the end of the dict. -/
theorem dinsert_of_not_mem {α : Type} (d : Dict α) (k : String) (v : α)
    (h : k ∉ dkeys d) : dinsert d k v = d ++ [(k, v)] := by
  induction d with
  | nil => rfl
  | cons hd tl ih =>
    obtain ⟨ka, va⟩ := hd
    simp only [dkeys, List.map_cons, List.mem_cons, not_or] at h
    have hne : ¬ (ka = k) := fun he => h.1 he.symm
    simp only [dinsert, if_neg hne, List.cons_append]
    exact congrArg (List.cons (ka, va)) (ih h.2)

/-- If some requested name is undeclared, the notification loop raises. -/
theorem pc_loop_error {σ : Type} (infos : PropTable σ) (interface : String)
    (info : Dict (PropertyInfo × DBusPropertyRT σ)) (st : σ) :
    ∀ (l : List String) (acc : Dict Py × List String),
      (∃ n ∈ l, dlookup info n = none) →
      ∃ e, pc_loop infos interface info st l acc = Except.error e := by
  intro l
  induction l with
  | nil => intro acc h; simp at h
  | cons n0 rest ih =>
    intro acc h
    cases hn0 : dlookup info n0 with
    | none =>
      exact ⟨"The D-Bus interface " ++ interface ++ " does not define a property " ++ n0,
        by simp [pc_loop, hn0]⟩
    | some entry =>
      obtain ⟨pi, p⟩ := entry
      have hrest : ∃ n ∈ rest, dlookup info n = none := by
        obtain ⟨n, hn, hnone⟩ := h
        rcases List.mem_cons.mp hn with rfl | hn'
        · rw [hn0] at hnone; exact absurd hnone (by simp)
        · exact ⟨n, hn', hnone⟩
      by_cases hec : p.emit_changed = true
      · by_cases hev : p.emit_with_value = true
        · cases hget : on_get_property infos interface n0 st with
          | error e => exact ⟨e, by simp [pc_loop, hn0, hec, hev, hget]⟩
          | ok value =>
            obtain ⟨e, he⟩ := ih (dinsert acc.1 n0 value, acc.2) hrest
            exact ⟨e, by simp [pc_loop, hn0, hec, hev, hget, he]⟩
        · obtain ⟨e, he⟩ := ih (acc.1, acc.2 ++ [n0]) hrest
          exact ⟨e, by simp [pc_loop, hn0, hec, hev, he]⟩
      · obtain ⟨e, he⟩ := ih acc hrest
        exact ⟨e, by simp [pc_loop, hn0, hec, he]⟩

/-- Success shape of the notification loop: with all names declared,
pairwise distinct and fresh, and the needed getters succeeding, it returns
the accumulator extended by exactly the names with `emit_changed`, each in
the half chosen by its own `emit_with_value` flag. -/
theorem pc_loop_ok {σ : Type} (infos : PropTable σ) (interface : String)
    (info : Dict (PropertyInfo × DBusPropertyRT σ)) (st : σ) (gv : String → Py) :
    ∀ (l : List String) (acc : Dict Py × List String),
      l.Nodup →
      (∀ n ∈ l, n ∉ dkeys acc.1) →
      (∀ n ∈ l, (dlookup info n).isSome) →
      (∀ n ∈ l, includedWithValue info n = true →
        on_get_property infos interface n st = Except.ok (gv n)) →
      pc_loop infos interface info st l acc =
        Except.ok
          (acc.1 ++ (l.filter (fun n => includedWithValue info n)).map (fun n => (n, gv n)),
           acc.2 ++ l.filter (fun n => includedInvalidated info n)) := by
  intro l
  induction l with
  | nil => intro acc _ _ _ _; simp [pc_loop]
  | cons n0 rest ih =>
    intro acc hnd hfresh hdecl hget
    obtain ⟨entry, hn0⟩ := Option.isSome_iff_exists.mp (hdecl n0 (by simp))
    obtain ⟨pi, p⟩ := entry
    have hwv : includedWithValue info n0 = (p.emit_changed && p.emit_with_value) := by
      simp [includedWithValue, hn0]
    have hiv : includedInvalidated info n0 = (p.emit_changed && !p.emit_with_value) := by
      simp [includedInvalidated, hn0]
    have hnd' : rest.Nodup := (List.nodup_cons.mp hnd).2
    have hn0rest : n0 ∉ rest := (List.nodup_cons.mp hnd).1
    by_cases hec : p.emit_changed = true
    · by_cases hev : p.emit_with_value = true
      · have hget0 : on_get_property infos interface n0 st = Except.ok (gv n0) :=
          hget n0 (by simp) (by simp [hwv, hec, hev])
        have hins : dinsert acc.1 n0 (gv n0) = acc.1 ++ [(n0, gv n0)] :=
          dinsert_of_not_mem acc.1 n0 (gv n0) (hfresh n0 (by simp))
        have ihr := ih (dinsert acc.1 n0 (gv n0), acc.2) hnd'
          (by
            intro n hn
            rw [hins]
            simp only [dkeys, List.map_append, List.mem_append]
            push_neg
            refine ⟨hfresh n (by simp [hn]), ?_⟩
            simp only [List.map_cons, List.map_nil, List.mem_cons, List.not_mem_nil]
            rintro (rfl | hfalse)
            · exact hn0rest hn
            · exact hfalse)
          (fun n hn => hdecl n (by simp [hn]))
          (fun n hn hw => hget n (by simp [hn]) hw)
        rw [hins] at ihr
        simp [pc_loop, hn0, hec, hev, hget0, hins, ihr, hwv, hiv, List.filter_cons]
      · have hevf : p.emit_with_value = false := by
          cases hpv : p.emit_with_value
          · rfl
          · exact absurd hpv hev
        have ihr := ih (acc.1, acc.2 ++ [n0]) hnd'
          (fun n hn => hfresh n (by simp [hn]))
          (fun n hn => hdecl n (by simp [hn]))
          (fun n hn hw => hget n (by simp [hn]) hw)
        simp [pc_loop, hn0, hec, hevf, ihr, hwv, hiv, List.filter_cons]
    · have hecf : p.emit_changed = false := by
        cases hpc : p.emit_changed
        · rfl
        · exact absurd hpc hec
      have ihr := ih acc hnd'
        (fun n hn => hfresh n (by simp [hn]))
        (fun n hn => hdecl n (by simp [hn]))
        (fun n hn hw => hget n (by simp [hn]) hw)
      simp [pc_loop, hn0, hecf, ihr, hwv, hiv, List.filter_cons]

/-- C6: bulk property-changed notification: if any requested name is not
declared on the given interface the call raises and no event is emitted
(an `Except.error` produces no updated instance, so no partial emission);
otherwise exactly one `PropertiesChanged` event is emitted, covering
exactly the requested names with `emit_changed`, each placed in the
changed-with-value dict or the invalidated list according to its own
`emit_with_value` flag. -/
theorem C6_bulk_properties_changed (σ : Type) (infos : PropTable σ)
    (inst : Instance σ) (interface : String) (properties : List String)
    (info : Dict (PropertyInfo × DBusPropertyRT σ)) (gv : String → Py)
    (hl : dlookup infos interface = some info) :
    ((∃ n ∈ properties, dlookup info n = none) →
      ∃ e, DBusTemplate.properties_changed true infos inst interface properties =
        Except.error e)
    ∧ (properties.Nodup →
       (∀ n ∈ properties, (dlookup info n).isSome) →
       (∀ n ∈ properties, includedWithValue info n = true →
         on_get_property infos interface n inst.state = Except.ok (gv n)) →
       DBusTemplate.properties_changed true infos inst interface properties =
         Except.ok (emit_properties_changed inst interface
           ((properties.filter (fun n => includedWithValue info n)).map
             (fun n => (n, gv n)))
           (properties.filter (fun n => includedInvalidated info n)))) := by
  constructor
  · intro hbad
    obtain ⟨e, he⟩ := pc_loop_error infos interface info inst.state properties ([], []) hbad
    exact ⟨e, by simp [DBusTemplate.properties_changed, hl, he]⟩
  · intro hnd hdecl hget
    have hok := pc_loop_ok infos interface info inst.state gv properties ([], [])
      hnd (by simp [dkeys]) hdecl hget
    simp [DBusTemplate.properties_changed, hl, hok]

/-- Witness for C6 on a concrete three-property interface: an undeclared
name makes the call raise; a request over all three properties emits one
event with `A` carrying its value, `B` invalidated and `C` absent. -/
theorem C6_bulk_properties_changed_witness :
    DBusTemplate.properties_changed true sampleBulkTable sampleInst
        "org.example.I" ["A", "Nope"] =
      Except.error ("The D-Bus interface org.example.I does not define a property Nope")
    ∧ DBusTemplate.properties_changed true sampleBulkTable sampleInst
        "org.example.I" ["A", "B", "C"] =
      Except.ok { state := (),
                  path := "/p",
                  emitted := [{ path := "/p",
                                interface_name := "org.freedesktop.DBus.Properties",
                                signal_name := "PropertiesChanged",
                                parameters := Py.tup [Py.vari "s" (Py.str "org.example.I"),
                                  Py.vari "a{sv}" (Py.dict [("A", Py.vari "i" (Py.int 5))]),
                                  Py.vari "as" (Py.list [Py.str "B"])] }] } := by
  constructor
  · obtain ⟨e, he⟩ := (C6_bulk_properties_changed Unit sampleBulkTable sampleInst
      "org.example.I" ["A", "Nope"] _ (fun _ => Py.vari "i" (Py.int 5)) rfl).1
      ⟨"Nope", by simp, rfl⟩
    rw [he]
    rw [show e = "The D-Bus interface org.example.I does not define a property Nope"
      from Except.error.inj (he.symm.trans rfl)]
  · have h := (C6_bulk_properties_changed Unit sampleBulkTable sampleInst "org.example.I"
      ["A", "B", "C"] _ (fun _ => Py.vari "i" (Py.int 5)) rfl).2
      (by decide) (by decide)
      (by
        intro n hn hw
        fin_cases hn
        · rfl
        · exact absurd hw (by decide)
        · exact absurd hw (by decide))
    exact h

/-! ### Dictionary lemmas -/

/-- Lookup after insertion. -/
theorem dlookup_dinsert {α : Type} (d : Dict α) (k x : String) (v : α) :
    dlookup (dinsert d k v) x = if k = x then some v else dlookup d x := by
  induction d with
  | nil => rfl
  | cons hd tl ih =>
    obtain ⟨ka, va⟩ := hd
    by_cases hk : ka = k
    · subst hk
      by_cases hx : ka = x
      · subst hx
        simp [dinsert, dlookup]
      · simp [dinsert, dlookup, hx]
    · by_cases hx : ka = x
      · subst hx
        have : ¬ (k = ka) := fun he => hk he.symm
        simp [dinsert, dlookup, hk, this]
      · simp [dinsert, dlookup, hk, hx, ih]

/-- Lookup skips a prefix that does not contain the key. -/
theorem dlookup_append_right {α : Type} (d l : Dict α) (x : String)
    (h : x ∉ dkeys d) : dlookup (d ++ l) x = dlookup l x := by
  induction d with
  | nil => rfl
  | cons hd tl ih =>
    obtain ⟨ka, va⟩ := hd
    simp only [dkeys, List.map_cons, List.mem_cons, not_or] at h
    have hne : ¬ (ka = x) := fun he => h.1 he.symm
    simp only [List.cons_append, dlookup, if_neg hne]
    exact ih (by simpa [dkeys] using h.2)

/-- Overwriting the value of a key that first occurs after a key-free
prefix. -/
theorem dinsert_append_key {α : Type} (d l : Dict α) (k : String) (w v : α)
    (h : k ∉ dkeys d) : dinsert (d ++ (k, w) :: l) k v = d ++ (k, v) :: l := by
  induction d with
  | nil => simp [dinsert]
  | cons hd tl ih =>
    obtain ⟨ka, va⟩ := hd
    simp only [dkeys, List.map_cons, List.mem_cons, not_or] at h
    have hne : ¬ (ka = k) := fun he => h.1 he.symm
    simp only [List.cons_append, dinsert, if_neg hne]
    exact congrArg (List.cons (ka, va)) (ih (by simpa [dkeys] using h.2))

/-! ### Catalog characterization -/

/-- Effect of one interface's member loop on the uniqueness map. -/
theorem foldl_catalogAddMember_unique {β : Type} (nameOf : β → String)
    (iface : InterfaceInfo) (name : String) :
    ∀ (ms : List β) (st : KindCatalog β), (ms.map nameOf).Nodup →
      dlookup ((ms.foldl (catalogAddMember nameOf iface) st).unique) name =
        if name ∈ ms.map nameOf then
          some (if (dlookup st.unique name).isNone then some iface else none)
        else dlookup st.unique name := by
  intro ms
  induction ms with
  | nil =>
    intro st _
    simp
  | cons m ms ih =>
    intro st hnd
    simp only [List.map_cons, List.nodup_cons] at hnd
    obtain ⟨hm, hnd'⟩ := hnd
    rw [List.foldl_cons, ih _ hnd']
    by_cases he : name = nameOf m
    · have hnotin : name ∉ ms.map nameOf := he ▸ hm
      have h1 : dlookup ((catalogAddMember nameOf iface st m).unique) name =
          some (if (dlookup st.unique name).isNone then some iface else none) := by
        simp only [catalogAddMember]
        rw [← he]
        by_cases hno : (dlookup st.unique name).isNone
        · simp [hno, dlookup_dinsert]
        · simp [hno, dlookup_dinsert]
      rw [if_neg hnotin, h1]
      simp [he]
    · have h1 : dlookup ((catalogAddMember nameOf iface st m).unique) name =
          dlookup st.unique name := by
        have hne : ¬ (nameOf m = name) := fun hx => he hx.symm
        simp only [catalogAddMember]
        by_cases hno : (dlookup st.unique (nameOf m)).isNone
        · simp [hno, dlookup_dinsert, hne]
        · simp [hno, dlookup_dinsert, hne]
      rw [h1]
      simp [he]

/-- Effect of the whole interface loop on the uniqueness map, relative to
an arbitrary starting state. -/
theorem foldl_catalogAddInterface_unique {β : Type} (nameOf : β → String)
    (extract : InterfaceInfo → List β) (name : String) :
    ∀ (l : List InterfaceInfo) (st : KindCatalog β),
      (∀ i ∈ l, ((extract i).map nameOf).Nodup) →
      dlookup ((l.foldl (catalogAddInterface nameOf extract) st).unique) name =
        match l.filter (fun i => decide (name ∈ (extract i).map nameOf)),
              dlookup st.unique name with
        | [], v => v
        | [i], none => some (some i)
        | [_], some _ => some none
        | _ :: _ :: _, _ => some none := by
  intro l
  induction l with
  | nil =>
    intro st _
    simp
  | cons i0 l ih =>
    intro st hnd
    have hnd0 : ((extract i0).map nameOf).Nodup := hnd i0 (by simp)
    have hnd' : ∀ i ∈ l, ((extract i).map nameOf).Nodup :=
      fun i hi => hnd i (by simp [hi])
    rw [List.foldl_cons, ih _ hnd']
    have h1 : dlookup ((catalogAddInterface nameOf extract st i0).unique) name =
        if name ∈ (extract i0).map nameOf then
          some (if (dlookup st.unique name).isNone then some i0 else none)
        else dlookup st.unique name := by
      simp only [catalogAddInterface]
      exact foldl_catalogAddMember_unique nameOf i0 name (extract i0) _ hnd0
    by_cases hmem : name ∈ (extract i0).map nameOf
    · rw [List.filter_cons_of_pos (by simpa using hmem)]
      rw [h1, if_pos hmem]
      rcases hf : l.filter (fun i => decide (name ∈ (extract i).map nameOf)) with
        _ | ⟨j, _ | ⟨j2, rest⟩⟩ <;>
        cases hv : dlookup st.unique name <;> simp
    · rw [List.filter_cons_of_neg (by simpa using hmem)]
      rw [h1, if_neg hmem]

/-- The uniqueness map of a built catalog: a name maps to nothing when no
interface declares it, to its owner when exactly one does, and to the
`_NotUnique` sentinel when several do. -/
theorem buildKind_unique {β : Type} (nameOf : β → String)
    (extract : InterfaceInfo → List β) (interfaces : List InterfaceInfo)
    (name : String)
    (hnd : ∀ i ∈ interfaces, ((extract i).map nameOf).Nodup) :
    dlookup (buildKind nameOf extract interfaces).unique name =
      match interfaces.filter (fun i => decide (name ∈ (extract i).map nameOf)) with
      | [] => none
      | [i] => some (some i)
      | _ :: _ :: _ => some none := by
  have h := foldl_catalogAddInterface_unique nameOf extract name interfaces
    { infos := [], unique := [] } hnd
  rw [buildKind, h]
  rcases interfaces.filter (fun i => decide (name ∈ (extract i).map nameOf)) with
    _ | ⟨j, _ | ⟨j2, rest⟩⟩ <;> simp [dlookup]

/-- Effect of one interface's member loop on the info tables: it only
rewrites that interface's entry, folding the members in. -/
theorem foldl_catalogAddMember_infos {β : Type} (nameOf : β → String)
    (iface : InterfaceInfo) :
    ∀ (ms : List β) (st : KindCatalog β) (d : Dict (Dict β)) (acc : Dict β),
      iface.name ∉ dkeys d → st.infos = d ++ [(iface.name, acc)] →
      (ms.foldl (catalogAddMember nameOf iface) st).infos =
        d ++ [(iface.name, ms.foldl (fun a m => dinsert a (nameOf m) m) acc)] := by
  intro ms
  induction ms with
  | nil =>
    intro st d acc _ hst
    simpa using hst
  | cons m ms ih =>
    intro st d acc hd hst
    rw [List.foldl_cons, List.foldl_cons]
    apply ih _ d (dinsert acc (nameOf m) m) hd
    have hl : dlookup st.infos iface.name = some acc := by
      rw [hst, dlookup_append_right _ _ _ hd]
      simp [dlookup]
    simp only [catalogAddMember, hl, Option.getD_some]
    rw [hst]
    exact dinsert_append_key d [] iface.name acc _ hd

/-- The info tables of a built catalog list, per parsed interface in
order, that interface's member dict. -/
theorem foldl_catalogAddInterface_infos {β : Type} (nameOf : β → String)
    (extract : InterfaceInfo → List β) :
    ∀ (l : List InterfaceInfo) (st : KindCatalog β),
      (∀ i ∈ l, i.name ∉ dkeys st.infos) →
      (l.map InterfaceInfo.name).Nodup →
      (l.foldl (catalogAddInterface nameOf extract) st).infos =
        st.infos ++ l.map (fun i => (i.name, membersDict nameOf (extract i))) := by
  intro l
  induction l with
  | nil =>
    intro st _ _
    simp
  | cons i0 l ih =>
    intro st hdisj hnd
    simp only [List.map_cons, List.nodup_cons] at hnd
    obtain ⟨hn0, hnd'⟩ := hnd
    have h0 : i0.name ∉ dkeys st.infos := hdisj i0 (by simp)
    have h1 : (catalogAddInterface nameOf extract st i0).infos =
        st.infos ++ [(i0.name, membersDict nameOf (extract i0))] := by
      simp only [catalogAddInterface]
      exact foldl_catalogAddMember_infos nameOf i0 (extract i0) _ st.infos [] h0
        (by simp [dinsert_of_not_mem st.infos i0.name [] h0])
    rw [List.foldl_cons, ih _ ?_ hnd', h1]
    · simp
    · intro i hi
      rw [h1]
      simp only [dkeys, List.map_append, List.mem_append, not_or]
      constructor
      · exact fun hm => (hdisj i (by simp [hi])) hm
      · simp only [List.map_cons, List.map_nil, List.mem_singleton]
        intro he
        exact hn0 (by rw [← he]; exact List.mem_map_of_mem InterfaceInfo.name hi)

/-- The built info tables, from an empty start. -/
theorem buildKind_infos {β : Type} (nameOf : β → String)
    (extract : InterfaceInfo → List β) (interfaces : List InterfaceInfo)
    (hnd : (interfaces.map InterfaceInfo.name).Nodup) :
    (buildKind nameOf extract interfaces).infos =
      interfaces.map (fun i => (i.name, membersDict nameOf (extract i))) := by
  have h := foldl_catalogAddInterface_infos nameOf extract interfaces
    { infos := [], unique := [] } (by simp [dkeys]) hnd
  simpa [buildKind] using h

/-- Looking a name up in a per-interface map dict: absent names. -/
theorem dlookup_interfaces_map_none {α : Type} (f : InterfaceInfo → α)
    (l : List InterfaceInfo) (x : String) (h : ∀ i ∈ l, i.name ≠ x) :
    dlookup (l.map fun i => (i.name, f i)) x = none := by
  induction l with
  | nil => rfl
  | cons i0 l ih =>
    simp only [List.map_cons, dlookup, if_neg (h i0 (by simp))]
    exact ih (fun i hi => h i (by simp [hi]))

/-- Looking a name up in a per-interface map dict: present interfaces. -/
theorem dlookup_interfaces_map_mem {α : Type} (f : InterfaceInfo → α)
    (l : List InterfaceInfo) (I : InterfaceInfo)
    (hnd : (l.map InterfaceInfo.name).Nodup) (hI : I ∈ l) :
    dlookup (l.map fun i => (i.name, f i)) I.name = some (f I) := by
  induction l with
  | nil => exact absurd hI (List.not_mem_nil I)
  | cons i0 l ih =>
    simp only [List.map_cons, List.nodup_cons] at hnd
    obtain ⟨hn0, hnd'⟩ := hnd
    rcases List.mem_cons.mp hI with rfl | hI'
    · simp [dlookup]
    · have hne : ¬ (i0.name = I.name) := by
        intro he
        exact hn0 (he ▸ List.mem_map_of_mem InterfaceInfo.name hI')
      simp only [List.map_cons, dlookup, if_neg hne]
      exact ih hnd' hI'

/-- The member-dict fold leaves alien keys untouched. -/
theorem dlookup_membersDict_fold {β : Type} (nameOf : β → String) (x : String) :
    ∀ (ms : List β) (acc : Dict β), x ∉ ms.map nameOf →
      dlookup (ms.foldl (fun d m => dinsert d (nameOf m) m) acc) x = dlookup acc x := by
  intro ms
  induction ms with
  | nil => intro acc _; rfl
  | cons m ms ih =>
    intro acc hx
    simp only [List.map_cons, List.mem_cons, not_or] at hx
    rw [List.foldl_cons, ih _ hx.2, dlookup_dinsert, if_neg (fun he => hx.1 he.symm)]

/-- The member-dict fold provides an entry for every inserted name. -/
theorem dlookup_membersDict_fold_some {β : Type} (nameOf : β → String) (x : String) :
    ∀ (ms : List β) (acc : Dict β),
      (x ∈ ms.map nameOf ∨ (dlookup acc x).isSome = true) →
      (dlookup (ms.foldl (fun d m => dinsert d (nameOf m) m) acc) x).isSome = true := by
  intro ms
  induction ms with
  | nil =>
    intro acc hx
    rcases hx with hx | hx
    · simp at hx
    · exact hx
  | cons m ms ih =>
    intro acc hx
    rw [List.foldl_cons]
    by_cases he : nameOf m = x
    · apply ih
      right
      rw [dlookup_dinsert, if_pos he]
      rfl
    · apply ih
      rcases hx with hx | hx
      · simp only [List.map_cons, List.mem_cons] at hx
        rcases hx with hx0 | hx'
        · exact absurd hx0.symm he
        · exact Or.inl hx'
      · right
        rw [dlookup_dinsert, if_neg he]
        exact hx

/-- A member dict contains no key outside its member names. -/
theorem dlookup_membersDict_not_mem {β : Type} (nameOf : β → String)
    (ms : List β) (x : String) (h : x ∉ ms.map nameOf) :
    dlookup (membersDict nameOf ms) x = none :=
  (dlookup_membersDict_fold nameOf x ms [] h).trans rfl

/-- A member dict has an entry for each member name. -/
theorem dlookup_membersDict_mem {β : Type} (nameOf : β → String)
    (ms : List β) (x : String) (h : x ∈ ms.map nameOf) :
    (dlookup (membersDict nameOf ms) x).isSome :=
  dlookup_membersDict_fold_some nameOf x ms [] (Or.inl h)

/-- C3: interface resolution for a stand-in of any member kind: an explicit
interface is used as given; otherwise the kind's uniqueness map decides —
a name declared by no interface errors "not defined in any interface", a
name declared by two distinct interfaces errors demanding an explicit
interface, and a name declared by exactly one interface resolves to that
owner; finally the resolved interface name must be one the catalog parsed
and the member name must exist within it, else `process_standin` errors. -/
theorem C3_interface_resolution {β : Type} (nameOf : β → String)
    (extract : InterfaceInfo → List β) (interfaces : List InterfaceInfo)
    (standin : StandIn) (ua : List (String × String))
    (rd : Option (Dict (Dict (β × Stored))))
    (hnodupI : (interfaces.map InterfaceInfo.name).Nodup)
    (hnodupM : ∀ i ∈ interfaces, ((extract i).map nameOf).Nodup) :
    (∀ iname, standin.interface = some iname →
      resolve_interface standin (buildKind nameOf extract interfaces).unique =
        Except.ok iname)
    ∧ (standin.interface = none →
       (∀ i ∈ interfaces, standin.name ∉ (extract i).map nameOf) →
       resolve_interface standin (buildKind nameOf extract interfaces).unique =
         Except.error ("D-Bus " ++ standin.type.toStr ++ " " ++ standin.name ++
           " not defined in any interface"))
    ∧ (standin.interface = none →
       (∃ i ∈ interfaces, ∃ j ∈ interfaces, i ≠ j ∧
         standin.name ∈ (extract i).map nameOf ∧
         standin.name ∈ (extract j).map nameOf) →
       resolve_interface standin (buildKind nameOf extract interfaces).unique =
         Except.error ("Interface for D-Bus " ++ standin.type.toStr ++ " " ++
           standin.name ++ " could not be auto-detected since the " ++
           standin.type.toStr ++
           " is defined in multiple interfaces. Specify the interface name manually"))
    ∧ (standin.interface = none →
       ∀ I, I ∈ interfaces → standin.name ∈ (extract I).map nameOf →
       (∀ J ∈ interfaces, standin.name ∈ (extract J).map nameOf → J = I) →
       resolve_interface standin (buildKind nameOf extract interfaces).unique =
         Except.ok I.name)
    ∧ (∀ iname,
       resolve_interface standin (buildKind nameOf extract interfaces).unique =
         Except.ok iname →
       ((∀ i ∈ interfaces, i.name ≠ iname) →
         process_standin standin ua (buildKind nameOf extract interfaces).unique
             (buildKind nameOf extract interfaces).infos rd =
           Except.error ("D-Bus interface " ++ iname ++ " not defined"))
       ∧ (∀ I, I ∈ interfaces → I.name = iname →
           standin.name ∉ (extract I).map nameOf →
           process_standin standin ua (buildKind nameOf extract interfaces).unique
               (buildKind nameOf extract interfaces).infos rd =
             Except.error ("D-Bus " ++ standin.type.toStr ++ " " ++ standin.name ++
               " not defined for interface " ++ iname))) := by
  have hlist : interfaces.Nodup := List.Nodup.of_map InterfaceInfo.name hnodupI
  refine ⟨?_, ?_, ?_, ?_, ?_⟩
  · intro iname hs
    simp [resolve_interface, hs]
  · intro hs hnone
    have hf : interfaces.filter
        (fun i => decide (standin.name ∈ (extract i).map nameOf)) = [] := by
      rw [List.filter_eq_nil_iff]
      intro i hi
      simpa using hnone i hi
    have hu := buildKind_unique nameOf extract interfaces standin.name hnodupM
    rw [hf] at hu
    simp [resolve_interface, hs, hu]
  · intro hs hmulti
    obtain ⟨i, hi, j, hj, hij, hmi, hmj⟩ := hmulti
    have hif : i ∈ interfaces.filter
        (fun k => decide (standin.name ∈ (extract k).map nameOf)) :=
      List.mem_filter.mpr ⟨hi, by simpa using hmi⟩
    have hjf : j ∈ interfaces.filter
        (fun k => decide (standin.name ∈ (extract k).map nameOf)) :=
      List.mem_filter.mpr ⟨hj, by simpa using hmj⟩
    have hu := buildKind_unique nameOf extract interfaces standin.name hnodupM
    rcases hfq : interfaces.filter
        (fun k => decide (standin.name ∈ (extract k).map nameOf)) with
      _ | ⟨a, _ | ⟨b, rest⟩⟩
    · rw [hfq] at hif
      exact absurd hif (List.not_mem_nil i)
    · rw [hfq] at hif hjf
      rcases List.mem_singleton.mp hif with rfl
      rcases List.mem_singleton.mp hjf with rfl
      exact absurd rfl hij
    · rw [hfq] at hu
      simp [resolve_interface, hs, hu]
  · intro hs I hI hmI huniq
    have hIf : I ∈ interfaces.filter
        (fun k => decide (standin.name ∈ (extract k).map nameOf)) :=
      List.mem_filter.mpr ⟨hI, by simpa using hmI⟩
    have hfnd : (interfaces.filter
        (fun k => decide (standin.name ∈ (extract k).map nameOf))).Nodup :=
      List.Nodup.filter _ hlist
    have hu := buildKind_unique nameOf extract interfaces standin.name hnodupM
    rcases hfq : interfaces.filter
        (fun k => decide (standin.name ∈ (extract k).map nameOf)) with
      _ | ⟨a, _ | ⟨b, rest⟩⟩
    · rw [hfq] at hIf
      exact absurd hIf (List.not_mem_nil I)
    · rw [hfq] at hIf hu
      rcases List.mem_singleton.mp hIf with rfl
      simp [resolve_interface, hs, hu]
    · exfalso
      rw [hfq] at hfnd hIf
      have hamem : a ∈ interfaces.filter
          (fun k => decide (standin.name ∈ (extract k).map nameOf)) := by
        rw [hfq]; simp
      have hbmem : b ∈ interfaces.filter
          (fun k => decide (standin.name ∈ (extract k).map nameOf)) := by
        rw [hfq]; simp
      have ha := List.mem_filter.mp hamem
      have hb := List.mem_filter.mp hbmem
      have haI : a = I := huniq a ha.1 (by simpa using ha.2)
      have hbI : b = I := huniq b hb.1 (by simpa using hb.2)
      rw [List.nodup_cons] at hfnd
      exact hfnd.1 (by rw [haI, ← hbI]; simp)
  · intro iname hres
    constructor
    · intro hno
      have hinfos := buildKind_infos nameOf extract interfaces hnodupI
      have hl : dlookup (buildKind nameOf extract interfaces).infos iname = none := by
        rw [hinfos]
        exact dlookup_interfaces_map_none _ interfaces iname hno
      simp [process_standin, hres, hl]
    · intro I hI hname hmemno
      have hinfos := buildKind_infos nameOf extract interfaces hnodupI
      have hl : dlookup (buildKind nameOf extract interfaces).infos iname =
          some (membersDict nameOf (extract I)) := by
        rw [hinfos, ← hname]
        exact dlookup_interfaces_map_mem _ interfaces I hnodupI hI
      have hm : dlookup (membersDict nameOf (extract I)) standin.name = none :=
        dlookup_membersDict_not_mem nameOf (extract I) standin.name hmemno
      simp [process_standin, hres, hl, hm]

/-- Witness for C3 on a concrete two-interface schema: explicit interface
used as given; absent, ambiguous and unique names resolved per the
uniqueness map; unknown interface and unknown member rejected. -/
theorem C3_interface_resolution_witness :
    resolve_interface (standinFor "X" (some "org.example.A"))
        (buildKind MethodInfo.name InterfaceInfo.methods sampleInterfaces).unique =
      Except.ok "org.example.A"
    ∧ resolve_interface (standinFor "Nope" none)
        (buildKind MethodInfo.name InterfaceInfo.methods sampleInterfaces).unique =
      Except.error ("D-Bus method Nope not defined in any interface")
    ∧ resolve_interface (standinFor "Shared" none)
        (buildKind MethodInfo.name InterfaceInfo.methods sampleInterfaces).unique =
      Except.error ("Interface for D-Bus method Shared could not be auto-detected since the method is defined in multiple interfaces. Specify the interface name manually")
    ∧ resolve_interface (standinFor "OnlyA" none)
        (buildKind MethodInfo.name InterfaceInfo.methods sampleInterfaces).unique =
      Except.ok "org.example.A"
    ∧ process_standin (standinFor "X" (some "org.example.Z")) []
        (buildKind MethodInfo.name InterfaceInfo.methods sampleInterfaces).unique
        (buildKind MethodInfo.name InterfaceInfo.methods sampleInterfaces).infos none =
      Except.error ("D-Bus interface org.example.Z not defined")
    ∧ process_standin (standinFor "OnlyB" (some "org.example.A")) []
        (buildKind MethodInfo.name InterfaceInfo.methods sampleInterfaces).unique
        (buildKind MethodInfo.name InterfaceInfo.methods sampleInterfaces).infos none =
      Except.error ("D-Bus method OnlyB not defined for interface org.example.A") := by
  refine ⟨?_, ?_, ?_, ?_, ?_, ?_⟩
  · exact (C3_interface_resolution MethodInfo.name InterfaceInfo.methods sampleInterfaces
      (standinFor "X" (some "org.example.A")) [] none (by decide) (by decide)).1
      "org.example.A" rfl
  · exact (C3_interface_resolution MethodInfo.name InterfaceInfo.methods sampleInterfaces
      (standinFor "Nope" none) [] none (by decide) (by decide)).2.1 rfl (by decide)
  · exact (C3_interface_resolution MethodInfo.name InterfaceInfo.methods sampleInterfaces
      (standinFor "Shared" none) [] none (by decide) (by decide)).2.2.1 rfl
      ⟨ifaceA, by decide, ifaceB, by decide, by decide, by decide, by decide⟩
  · exact (C3_interface_resolution MethodInfo.name InterfaceInfo.methods sampleInterfaces
      (standinFor "OnlyA" none) [] none (by decide) (by decide)).2.2.2.1 rfl
      ifaceA (by decide) (by decide) (by decide)
  · exact ((C3_interface_resolution MethodInfo.name InterfaceInfo.methods sampleInterfaces
      (standinFor "X" (some "org.example.Z")) [] none (by decide) (by decide)).2.2.2.2
      "org.example.Z" rfl).1 (by decide)
  · exact ((C3_interface_resolution MethodInfo.name InterfaceInfo.methods sampleInterfaces
      (standinFor "OnlyB" (some "org.example.A")) [] none (by decide) (by decide)).2.2.2.2
      "org.example.A" rfl).2 ifaceA (by decide) (by decide) (by decide)

/-! ### Binding-loop lemmas -/

/-- What a successful `process_standin` tells us: the stand-in resolved,
its pair was still unassigned, the pair is erased, and the runtime table
(if any) gains exactly that pair's entry. -/
theorem process_standin_ok {β : Type} (standin : StandIn)
    (ua : List (String × String)) (unique : Dict (Option InterfaceInfo))
    (infos : Dict (Dict β)) (rd : Option (Dict (Dict (β × Stored))))
    (iname : String) (ua' : List (String × String))
    (rd' : Option (Dict (Dict (β × Stored))))
    (h : process_standin standin ua unique infos rd =
      Except.ok (iname, ua', rd')) :
    resolveFull standin unique infos = some (iname, standin.name) ∧
    (iname, standin.name) ∈ ua ∧
    ua' = ua.erase (iname, standin.name) ∧
    (rd = none → rd' = none) ∧
    (∀ d, rd = some d → ∃ v : β × Stored,
      rd' = some (dinsert d iname
        (dinsert ((dlookup d iname).getD []) standin.name v))) := by
  rcases hres : resolve_interface standin unique with e | i
  · simp [process_standin, hres] at h
  · rcases hinf : dlookup infos i with _ | inner
    · simp [process_standin, hres, hinf] at h
    · rcases hm2 : dlookup inner standin.name with _ | info
      · simp [process_standin, hres, hinf, hm2] at h
      · by_cases hmem : (i, standin.name) ∈ ua
        · simp only [process_standin, hres, hinf, hm2, if_pos hmem,
            Except.ok.injEq, Prod.mk.injEq] at h
          obtain ⟨hi, hua, hrd⟩ := h
          subst hi
          subst hua
          refine ⟨by simp [resolveFull, hres, hinf, hm2], hmem, rfl, ?_, ?_⟩
          · intro h0
            subst h0
            simpa using hrd.symm
          · intro d h0
            subst h0
            exact ⟨_, hrd.symm⟩
        · simp [process_standin, hres, hinf, hm2, hmem] at h

/-- Conversely, a stand-in that resolves to a still-unassigned pair is
processed successfully. -/
theorem process_standin_total {β : Type} (standin : StandIn)
    (ua : List (String × String)) (unique : Dict (Option InterfaceInfo))
    (infos : Dict (Dict β)) (rd : Option (Dict (Dict (β × Stored))))
    (p : String × String)
    (hres : resolveFull standin unique infos = some p) (hmem : p ∈ ua) :
    ∃ rd', process_standin standin ua unique infos rd =
      Except.ok (p.1, ua.erase p, rd') := by
  rcases hr : resolve_interface standin unique with e | i
  · simp [resolveFull, hr] at hres
  · rcases hinf : dlookup infos i with _ | inner
    · simp [resolveFull, hr, hinf] at hres
    · rcases hm : dlookup inner standin.name with _ | info
      · simp [resolveFull, hr, hinf, hm] at hres
      · simp only [resolveFull, hr, hinf, hm, Option.some.injEq] at hres
        subst hres
        refine ⟨(match rd with
          | none => none
          | some d => some (dinsert d i (dinsert ((dlookup d i).getD []) standin.name
              (info, if standin.type = HandlerType.property then Stored.prop standin
                     else Stored.func standin.funcId)))), ?_⟩
        simp [process_standin, hr, hinf, hm, hmem]

/-- Adding one fresh `(interface, member)` entry to a runtime table
extends its key pairs by exactly that pair, up to permutation. -/
theorem collect_unassigned_dupdate {γ : Type} (d : Dict (Dict γ))
    (k1 k2 : String) (v : γ)
    (h : (k1, k2) ∉ collect_unassigned d) :
    (collect_unassigned (dinsert d k1
        (dinsert ((dlookup d k1).getD []) k2 v))).Perm
      ((k1, k2) :: collect_unassigned d) := by
  induction d with
  | nil =>
    simp [collect_unassigned, dlookup, dinsert]
  | cons hd rest ih =>
    obtain ⟨ka, inner⟩ := hd
    by_cases hk : ka = k1
    · subst hk
      have hl : dlookup ((ka, inner) :: rest) ka = some inner := by
        simp [dlookup]
      have hk2 : k2 ∉ dkeys inner := by
        intro hmem
        apply h
        simp only [collect_unassigned, List.flatMap_cons, List.mem_append]
        left
        simp only [dkeys, List.mem_map] at hmem
        obtain ⟨q, hq, hq2⟩ := hmem
        exact List.mem_map.mpr ⟨q, hq, by simp [hq2]⟩
      rw [hl]
      simp only [Option.getD_some]
      have hd1 : dinsert ((ka, inner) :: rest) ka (dinsert inner k2 v) =
          (ka, dinsert inner k2 v) :: rest := by
        simp [dinsert]
      rw [hd1, dinsert_of_not_mem inner k2 v hk2]
      simp only [collect_unassigned, List.flatMap_cons, List.map_append]
      rw [List.append_assoc]
      exact List.perm_middle
    · have hl : dlookup ((ka, inner) :: rest) k1 = dlookup rest k1 := by
        simp [dlookup, hk]
      have hd1 : dinsert ((ka, inner) :: rest) k1
          (dinsert ((dlookup rest k1).getD []) k2 v) =
          (ka, inner) :: dinsert rest k1 (dinsert ((dlookup rest k1).getD []) k2 v) := by
        simp [dinsert, hk]
      have hrest : (k1, k2) ∉ collect_unassigned rest := by
        intro hmem
        exact h (by
          simp only [collect_unassigned, List.flatMap_cons, List.mem_append]
          exact Or.inr hmem)
      rw [hl, hd1]
      simp only [collect_unassigned, List.flatMap_cons]
      exact List.Perm.trans (List.Perm.append_left _ (ih hrest)) List.perm_middle

/-- Keys added by the member-dict fold, for distinct fresh names. -/
theorem dkeys_membersDict_fold {β : Type} (nameOf : β → String) :
    ∀ (ms : List β) (acc : Dict β),
      (∀ m ∈ ms, nameOf m ∉ dkeys acc) → (ms.map nameOf).Nodup →
      dkeys (ms.foldl (fun d m => dinsert d (nameOf m) m) acc) =
        dkeys acc ++ ms.map nameOf := by
  intro ms
  induction ms with
  | nil =>
    intro acc _ _
    simp
  | cons m ms ih =>
    intro acc hfresh hnd
    simp only [List.map_cons, List.nodup_cons] at hnd
    rw [List.foldl_cons, dinsert_of_not_mem acc (nameOf m) m (hfresh m (by simp))]
    rw [ih (acc ++ [(nameOf m, m)]) ?_ hnd.2]
    · simp [dkeys]
    · intro m' hm'
      simp only [dkeys, List.map_append, List.mem_append, not_or]
      refine ⟨hfresh m' (by simp [hm']), ?_⟩
      simp only [List.map_cons, List.map_nil, List.mem_singleton]
      intro he
      exact hnd.1 (he ▸ List.mem_map_of_mem nameOf hm')

/-- The keys of a member dict are the member names. -/
theorem dkeys_membersDict {β : Type} (nameOf : β → String) (ms : List β)
    (hnd : (ms.map nameOf).Nodup) :
    dkeys (membersDict nameOf ms) = ms.map nameOf := by
  have h := dkeys_membersDict_fold nameOf ms [] (by simp [dkeys]) hnd
  simpa [membersDict, dkeys] using h

/-- Pairing a constant first component with dict keys. -/
theorem map_pair_fst {γ : Type} (k : String) (d : List (String × γ)) :
    d.map (fun q => (k, q.1)) = (d.map Prod.fst).map (fun n => (k, n)) := by
  induction d with
  | nil => rfl
  | cons hd tl ih => simp [ih]

/-- Pairing a constant first component with member names. -/
theorem map_pair_name {β : Type} (k : String) (nameOf : β → String) (ms : List β) :
    (ms.map nameOf).map (fun n => (k, n)) = ms.map (fun m => (k, nameOf m)) := by
  induction ms with
  | nil => rfl
  | cons hd tl ih => simp [ih]

/-- `collect_unassigned` over the per-interface map dict is exactly the
declared pair list. -/
theorem collect_unassigned_interfaces_map {β : Type} (nameOf : β → String)
    (extract : InterfaceInfo → List β) :
    ∀ (l : List InterfaceInfo), (∀ i ∈ l, ((extract i).map nameOf).Nodup) →
      collect_unassigned (l.map (fun i => (i.name, membersDict nameOf (extract i)))) =
        declaredPairs nameOf extract l := by
  intro l
  induction l with
  | nil =>
    intro _
    rfl
  | cons i0 l ih =>
    intro hnd
    simp only [List.map_cons, collect_unassigned, List.flatMap_cons, declaredPairs]
    have h1 : (membersDict nameOf (extract i0)).map (fun q => (i0.name, q.1)) =
        (extract i0).map (fun m => (i0.name, nameOf m)) := by
      have hk : (membersDict nameOf (extract i0)).map Prod.fst =
          (extract i0).map nameOf := dkeys_membersDict nameOf _ (hnd i0 (by simp))
      rw [map_pair_fst, hk, map_pair_name]
    rw [h1]
    have h2 := ih (fun i hi => hnd i (by simp [hi]))
    simp only [collect_unassigned] at h2
    rw [h2]
    rfl

/-- The declared pairs seeded from a built catalog. -/
theorem collect_unassigned_buildKind {β : Type} (nameOf : β → String)
    (extract : InterfaceInfo → List β) (interfaces : List InterfaceInfo)
    (hnodupI : (interfaces.map InterfaceInfo.name).Nodup)
    (hnd : ∀ i ∈ interfaces, ((extract i).map nameOf).Nodup) :
    collect_unassigned (buildKind nameOf extract interfaces).infos =
      declaredPairs nameOf extract interfaces := by
  rw [buildKind_infos nameOf extract interfaces hnodupI]
  exact collect_unassigned_interfaces_map nameOf extract interfaces hnd

/-- Every declared pair names its declaring interface. -/
theorem declaredPairs_fst {β : Type} (nameOf : β → String)
    (extract : InterfaceInfo → List β) (l : List InterfaceInfo)
    (p : String × String) (hp : p ∈ declaredPairs nameOf extract l) :
    ∃ i ∈ l, p.1 = i.name := by
  simp only [declaredPairs, List.mem_flatMap, List.mem_map] at hp
  obtain ⟨i, hi, m, _, hm2⟩ := hp
  exact ⟨i, hi, by rw [← hm2]⟩

/-- With distinct interface names and distinct member names per interface,
the declared pair list has no duplicates. -/
theorem declaredPairs_nodup {β : Type} (nameOf : β → String)
    (extract : InterfaceInfo → List β) :
    ∀ (l : List InterfaceInfo), (l.map InterfaceInfo.name).Nodup →
      (∀ i ∈ l, ((extract i).map nameOf).Nodup) →
      (declaredPairs nameOf extract l).Nodup := by
  intro l
  induction l with
  | nil =>
    intro _ _
    simp [declaredPairs]
  | cons i0 l ih =>
    intro hnodupI hnd
    simp only [List.map_cons, List.nodup_cons] at hnodupI
    have hseg : ((extract i0).map (fun m => (i0.name, nameOf m))).Nodup := by
      rw [← map_pair_name i0.name nameOf (extract i0)]
      exact (hnd i0 (by simp)).map (fun a b hab => congrArg Prod.snd hab)
    simp only [declaredPairs, List.flatMap_cons]
    rw [List.nodup_append]
    refine ⟨hseg, ih hnodupI.2 (fun i hi => hnd i (by simp [hi])), ?_⟩
    intro p hp1 hp2
    obtain ⟨j, hj, hpj⟩ := declaredPairs_fst nameOf extract l p hp2
    simp only [List.mem_map] at hp1
    obtain ⟨m, _, hm2⟩ := hp1
    apply hnodupI.1
    have : p.1 = i0.name := by rw [← hm2]
    rw [← this, hpj]
    exact List.mem_map_of_mem InterfaceInfo.name hj

/-- Appending a stand-in of another kind leaves a kind's targets alone. -/
theorem kindTargets_append_skip (catM : KindCatalog MethodInfo)
    (catS : KindCatalog SignalInfo) (catP : KindCatalog PropertyInfo)
    (k : HandlerType) (m : StandIn) (hm : ¬ (m.type = k)) :
    ∀ l, kindTargets catM catS catP k (l ++ [m]) =
      kindTargets catM catS catP k l := by
  intro l
  induction l with
  | nil =>
    simp [kindTargets, hm]
  | cons s l ih =>
    simp only [List.cons_append, kindTargets, List.append_eq, ih]

/-- Appending a stand-in of the kind that resolves extends the targets. -/
theorem kindTargets_append_hit (catM : KindCatalog MethodInfo)
    (catS : KindCatalog SignalInfo) (catP : KindCatalog PropertyInfo)
    (k : HandlerType) (m : StandIn) (p : String × String)
    (hm : m.type = k) (ht : standinTarget catM catS catP m = some p) :
    ∀ l tl, kindTargets catM catS catP k l = some tl →
      kindTargets catM catS catP k (l ++ [m]) = some (tl ++ [p]) := by
  intro l
  induction l with
  | nil =>
    intro tl h
    simp only [kindTargets, Option.some.injEq] at h
    subst h
    simp [kindTargets, hm, ht]
  | cons s l ih =>
    intro tl h
    by_cases hs : s.type = k
    · rcases hts : standinTarget catM catS catP s with _ | q
      · simp [kindTargets, hs, hts] at h
      · rcases hkt : kindTargets catM catS catP k l with _ | tl'
        · simp [kindTargets, hs, hts, hkt] at h
        · simp only [kindTargets, hs, if_true, hts, hkt, Option.some.injEq] at h
          subst h
          rw [List.cons_append]
          simp only [kindTargets, hs, if_true, hts, List.append_eq, ih tl' hkt,
            List.cons_append]
    · simp only [kindTargets, hs, if_false, List.append_eq] at h ⊢
      exact ih tl h

/-- Membership in a kind's target list. -/
theorem kindTargets_mem (catM : KindCatalog MethodInfo)
    (catS : KindCatalog SignalInfo) (catP : KindCatalog PropertyInfo)
    (k : HandlerType) :
    ∀ (l : List StandIn) (tl : List (String × String)),
      kindTargets catM catS catP k l = some tl →
      ∀ p, (p ∈ tl ↔ ∃ s ∈ l, s.type = k ∧
        standinTarget catM catS catP s = some p) := by
  intro l
  induction l with
  | nil =>
    intro tl h p
    simp only [kindTargets, Option.some.injEq] at h
    subst h
    simp
  | cons s l ih =>
    intro tl h p
    by_cases hs : s.type = k
    · rcases hts : standinTarget catM catS catP s with _ | q
      · simp [kindTargets, hs, hts] at h
      · rcases hkt : kindTargets catM catS catP k l with _ | tl'
        · simp [kindTargets, hs, hts, hkt] at h
        · simp only [kindTargets, hs, if_true, hts, hkt, Option.some.injEq] at h
          subst h
          constructor
          · intro hp
            rcases List.mem_cons.mp hp with rfl | hp'
            · exact ⟨s, by simp, hs, hts⟩
            · obtain ⟨s', hs1, hs2, hs3⟩ := (ih tl' hkt p).mp hp'
              exact ⟨s', by simp [hs1], hs2, hs3⟩
          · rintro ⟨s', hs1, hs2, hs3⟩
            rcases List.mem_cons.mp hs1 with rfl | hs1'
            · rw [hts] at hs3
              simp only [Option.some.injEq] at hs3
              simp [hs3]
            · exact List.mem_cons.mpr (Or.inr ((ih tl' hkt p).mpr ⟨s', hs1', hs2, hs3⟩))
    · simp only [kindTargets, hs, if_false] at h
      constructor
      · intro hp
        obtain ⟨s', hs1, hs2, hs3⟩ := (ih tl h p).mp hp
        exact ⟨s', by simp [hs1], hs2, hs3⟩
      · rintro ⟨s', hs1, hs2, hs3⟩
        rcases List.mem_cons.mp hs1 with rfl | hs1'
        · exact absurd hs2 hs
        · exact (ih tl h p).mpr ⟨s', hs1', hs2, hs3⟩

/-- A member of a list can be moved to the front, erasing it behind
(generic over any lawful `BEq` instance). -/
theorem perm_cons_erase_of_mem {α : Type} [BEq α] [LawfulBEq α] {a : α}
    {l : List α} (h : a ∈ l) : l.Perm (a :: l.erase a) := by
  induction l with
  | nil => cases h
  | cons b l ih =>
    rw [List.erase_cons]
    by_cases hb : (b == a) = true
    · rw [if_pos hb]
      have hba : b = a := eq_of_beq hb
      subst hba
      exact List.Perm.refl _
    · rw [if_neg hb]
      have hmem : a ∈ l := by
        rcases List.mem_cons.mp h with rfl | h1
        · exact absurd (by simp) hb
        · exact h1
      exact ((ih hmem).cons b).trans (List.Perm.swap a b _)

/-- Moving the head of a list to its back is a permutation. -/
theorem perm_cons_append {α : Type} (a : α) (l : List α) :
    (a :: l).Perm (l ++ [a]) := by
  simpa using (@List.perm_middle α a l []).symm

/-- One successful `bindStep` preserves the binding invariant, recording
the processed stand-in. -/
theorem bindStep_inv (catM : KindCatalog MethodInfo) (catS : KindCatalog SignalInfo)
    (catP : KindCatalog PropertyInfo) (interfaces : List InterfaceInfo)
    (hdecl : ∀ k, (declaredOfKind interfaces k).Nodup)
    (processed : List StandIn) (st st₁ : BindState) (m : StandIn)
    (hInv : BindInv catM catS catP interfaces processed st)
    (hstep : bindStep catM catS catP st m = Except.ok st₁) :
    BindInv catM catS catP interfaces (processed ++ [m]) st₁ := by
  cases hm : m.type with
  | method =>
    simp only [bindStep, hm] at hstep
    rcases hps : process_standin m st.ua_methods catM.unique catM.infos
        (some st.def_methods) with e | r
    · rw [hps] at hstep
      simp at hstep
    · obtain ⟨iname, ua2, rd2⟩ := r
      rw [hps] at hstep
      simp only [Except.ok.injEq] at hstep
      obtain ⟨htgt, hmem, hua2, -, hrd⟩ :=
        process_standin_ok m st.ua_methods catM.unique catM.infos
          (some st.def_methods) iname ua2 rd2 hps
      obtain ⟨v, hv⟩ := hrd st.def_methods rfl
      subst hua2
      subst hstep
      have htgt' : standinTarget catM catS catP m = some (iname, m.name) := by
        simp [standinTarget, hm, htgt]
      intro k
      obtain ⟨tl, hkt, hbound, hpart⟩ := hInv k
      cases k with
      | method =>
        have hnd : (st.ua_methods ++ collect_unassigned st.def_methods).Nodup :=
          hpart.nodup_iff.mpr (hdecl HandlerType.method)
        have hnotin : (iname, m.name) ∉ collect_unassigned st.def_methods :=
          List.disjoint_of_nodup_append hnd hmem
        have h1 : (collect_unassigned (rd2.getD st.def_methods)).Perm
            ((iname, m.name) :: collect_unassigned st.def_methods) := by
          rw [hv, Option.getD_some]
          exact collect_unassigned_dupdate st.def_methods iname m.name v hnotin
        refine ⟨tl ++ [(iname, m.name)], ?_, ?_, ?_⟩
        · exact kindTargets_append_hit catM catS catP HandlerType.method m
            (iname, m.name) hm htgt' processed tl hkt
        · exact (h1.trans (hbound.cons (iname, m.name))).trans
            (perm_cons_append (iname, m.name) tl)
        · have hstep1 : (st.ua_methods.erase (iname, m.name) ++
              collect_unassigned (rd2.getD st.def_methods)).Perm
              ((iname, m.name) :: (st.ua_methods.erase (iname, m.name) ++
                collect_unassigned st.def_methods)) :=
            (List.Perm.append_left _ h1).trans List.perm_middle
          have hstep2 : (st.ua_methods ++ collect_unassigned st.def_methods).Perm
              (((iname, m.name) :: st.ua_methods.erase (iname, m.name)) ++
                collect_unassigned st.def_methods) :=
            List.Perm.append_right _ (perm_cons_erase_of_mem hmem)
          rw [List.cons_append] at hstep2
          exact hstep1.trans (hstep2.symm.trans hpart)
      | signal =>
        refine ⟨tl, ?_, hbound, hpart⟩
        rw [kindTargets_append_skip catM catS catP HandlerType.signal m
          (by rw [hm]; decide) processed]
        exact hkt
      | property =>
        refine ⟨tl, ?_, hbound, hpart⟩
        rw [kindTargets_append_skip catM catS catP HandlerType.property m
          (by rw [hm]; decide) processed]
        exact hkt
  | signal =>
    simp only [bindStep, hm] at hstep
    rcases hps : process_standin m st.ua_signals catS.unique catS.infos none with e | r
    · rw [hps] at hstep
      simp at hstep
    · obtain ⟨iname, ua2, rd2⟩ := r
      rw [hps] at hstep
      simp only [Except.ok.injEq] at hstep
      obtain ⟨htgt, hmem, hua2, -, -⟩ :=
        process_standin_ok m st.ua_signals catS.unique catS.infos none iname ua2 rd2 hps
      subst hua2
      subst hstep
      have htgt' : standinTarget catM catS catP m = some (iname, m.name) := by
        simp [standinTarget, hm, htgt]
      intro k
      obtain ⟨tl, hkt, hbound, hpart⟩ := hInv k
      cases k with
      | method =>
        refine ⟨tl, ?_, hbound, hpart⟩
        rw [kindTargets_append_skip catM catS catP HandlerType.method m
          (by rw [hm]; decide) processed]
        exact hkt
      | signal =>
        refine ⟨tl ++ [(iname, m.name)], ?_, ?_, ?_⟩
        · exact kindTargets_append_hit catM catS catP HandlerType.signal m
            (iname, m.name) hm htgt' processed tl hkt
        · exact List.Perm.append_right _ hbound
        · have h1 : (st.signal_proxies ++ [(iname, m.name)]).Perm
              ((iname, m.name) :: st.signal_proxies) :=
            (perm_cons_append (iname, m.name) st.signal_proxies).symm
          have hstep1 : (st.ua_signals.erase (iname, m.name) ++
              (st.signal_proxies ++ [(iname, m.name)])).Perm
              ((iname, m.name) :: (st.ua_signals.erase (iname, m.name) ++
                st.signal_proxies)) :=
            (List.Perm.append_left _ h1).trans List.perm_middle
          have hstep2 : (st.ua_signals ++ st.signal_proxies).Perm
              (((iname, m.name) :: st.ua_signals.erase (iname, m.name)) ++
                st.signal_proxies) :=
            List.Perm.append_right _ (perm_cons_erase_of_mem hmem)
          rw [List.cons_append] at hstep2
          exact hstep1.trans (hstep2.symm.trans hpart)
      | property =>
        refine ⟨tl, ?_, hbound, hpart⟩
        rw [kindTargets_append_skip catM catS catP HandlerType.property m
          (by rw [hm]; decide) processed]
        exact hkt
  | property =>
    simp only [bindStep, hm] at hstep
    rcases hps : process_standin m st.ua_properties catP.unique catP.infos
        (some st.def_properties) with e | r
    · rw [hps] at hstep
      simp at hstep
    · obtain ⟨iname, ua2, rd2⟩ := r
      rw [hps] at hstep
      simp only [Except.ok.injEq] at hstep
      obtain ⟨htgt, hmem, hua2, -, hrd⟩ :=
        process_standin_ok m st.ua_properties catP.unique catP.infos
          (some st.def_properties) iname ua2 rd2 hps
      obtain ⟨v, hv⟩ := hrd st.def_properties rfl
      subst hua2
      subst hstep
      have htgt' : standinTarget catM catS catP m = some (iname, m.name) := by
        simp [standinTarget, hm, htgt]
      intro k
      obtain ⟨tl, hkt, hbound, hpart⟩ := hInv k
      cases k with
      | method =>
        refine ⟨tl, ?_, hbound, hpart⟩
        rw [kindTargets_append_skip catM catS catP HandlerType.method m
          (by rw [hm]; decide) processed]
        exact hkt
      | signal =>
        refine ⟨tl, ?_, hbound, hpart⟩
        rw [kindTargets_append_skip catM catS catP HandlerType.signal m
          (by rw [hm]; decide) processed]
        exact hkt
      | property =>
        have hnd : (st.ua_properties ++ collect_unassigned st.def_properties).Nodup :=
          hpart.nodup_iff.mpr (hdecl HandlerType.property)
        have hnotin : (iname, m.name) ∉ collect_unassigned st.def_properties :=
          List.disjoint_of_nodup_append hnd hmem
        have h1 : (collect_unassigned (rd2.getD st.def_properties)).Perm
            ((iname, m.name) :: collect_unassigned st.def_properties) := by
          rw [hv, Option.getD_some]
          exact collect_unassigned_dupdate st.def_properties iname m.name v hnotin
        refine ⟨tl ++ [(iname, m.name)], ?_, ?_, ?_⟩
        · exact kindTargets_append_hit catM catS catP HandlerType.property m
            (iname, m.name) hm htgt' processed tl hkt
        · exact (h1.trans (hbound.cons (iname, m.name))).trans
            (perm_cons_append (iname, m.name) tl)
        · have hstep1 : (st.ua_properties.erase (iname, m.name) ++
              collect_unassigned (rd2.getD st.def_properties)).Perm
              ((iname, m.name) :: (st.ua_properties.erase (iname, m.name) ++
                collect_unassigned st.def_properties)) :=
            (List.Perm.append_left _ h1).trans List.perm_middle
          have hstep2 : (st.ua_properties ++ collect_unassigned st.def_properties).Perm
              (((iname, m.name) :: st.ua_properties.erase (iname, m.name)) ++
                collect_unassigned st.def_properties) :=
            List.Perm.append_right _ (perm_cons_erase_of_mem hmem)
          rw [List.cons_append] at hstep2
          exact hstep1.trans (hstep2.symm.trans hpart)

/-- The scanning loop preserves the binding invariant. -/
theorem bindFold_inv (catM : KindCatalog MethodInfo) (catS : KindCatalog SignalInfo)
    (catP : KindCatalog PropertyInfo) (interfaces : List InterfaceInfo)
    (hdecl : ∀ k, (declaredOfKind interfaces k).Nodup) :
    ∀ (members processed : List StandIn) (st st' : BindState),
      BindInv catM catS catP interfaces processed st →
      bindFold catM catS catP members st = Except.ok st' →
      BindInv catM catS catP interfaces (processed ++ members) st' := by
  intro members
  induction members with
  | nil =>
    intro processed st st' hInv h
    simp only [bindFold, Except.ok.injEq] at h
    subst h
    simpa using hInv
  | cons m rest ih =>
    intro processed st st' hInv h
    rcases hs : bindStep catM catS catP st m with e | st₁
    · rw [bindFold, hs] at h
      simp at h
    · rw [bindFold, hs] at h
      replace h : bindFold catM catS catP rest st₁ = Except.ok st' := h
      have hInv₁ := bindStep_inv catM catS catP interfaces hdecl processed st st₁ m hInv hs
      have h2 := ih (processed ++ [m]) st₁ st' hInv₁ h
      rw [List.append_assoc] at h2
      simpa using h2

/-- The binding invariant holds at the start of the scan. -/
theorem bindInv_init (interfaces : List InterfaceInfo)
    (hnodupI : (interfaces.map InterfaceInfo.name).Nodup)
    (hndM : ∀ i ∈ interfaces, ((i.methods).map MethodInfo.name).Nodup)
    (hndS : ∀ i ∈ interfaces, ((i.signals).map SignalInfo.name).Nodup)
    (hndP : ∀ i ∈ interfaces, ((i.properties).map PropertyInfo.name).Nodup) :
    BindInv (buildKind MethodInfo.name InterfaceInfo.methods interfaces)
      (buildKind SignalInfo.name InterfaceInfo.signals interfaces)
      (buildKind PropertyInfo.name InterfaceInfo.properties interfaces)
      interfaces [] (bindInit interfaces) := by
  intro k
  refine ⟨[], rfl, ?_, ?_⟩
  · cases k <;> exact List.Perm.nil
  · cases k with
    | method =>
      have he := collect_unassigned_buildKind MethodInfo.name InterfaceInfo.methods
        interfaces hnodupI hndM
      simp only [uaOfKind, boundOfKind, declaredOfKind, bindInit, he]
      simp [collect_unassigned]
    | signal =>
      have he := collect_unassigned_buildKind SignalInfo.name InterfaceInfo.signals
        interfaces hnodupI hndS
      simp only [uaOfKind, boundOfKind, declaredOfKind, bindInit, he]
      simp
    | property =>
      have he := collect_unassigned_buildKind PropertyInfo.name InterfaceInfo.properties
        interfaces hnodupI hndP
      simp only [uaOfKind, boundOfKind, declaredOfKind, bindInit, he]
      simp [collect_unassigned]

/-- A successful `DBusTemplate.__call__` comes from a successful scan whose
unassigned sets all emptied, and returns that scan's tables. -/
theorem DBusTemplate_call_ok_elim (interfaces : List InterfaceInfo)
    (members : List StandIn) (b : BindResult)
    (h : DBusTemplate.call interfaces members = Except.ok b) :
    ∃ st : BindState,
      bindFold (buildKind MethodInfo.name InterfaceInfo.methods interfaces)
        (buildKind SignalInfo.name InterfaceInfo.signals interfaces)
        (buildKind PropertyInfo.name InterfaceInfo.properties interfaces)
        members (bindInit interfaces) = Except.ok st ∧
      st.ua_methods = [] ∧ st.ua_signals = [] ∧ st.ua_properties = [] ∧
      b.def_methods = st.def_methods ∧ b.def_properties = st.def_properties ∧
      b.signal_proxies = st.signal_proxies := by
  simp only [DBusTemplate.call] at h
  rcases hf : bindFold (buildKind MethodInfo.name InterfaceInfo.methods interfaces)
      (buildKind SignalInfo.name InterfaceInfo.signals interfaces)
      (buildKind PropertyInfo.name InterfaceInfo.properties interfaces)
      members (bindInit interfaces) with e | st
  · rw [hf] at h
    exact Except.noConfusion h
  · rw [hf] at h
    obtain ⟨uam, uas, uap, dm, dp, sp⟩ := st
    refine ⟨⟨uam, uas, uap, dm, dp, sp⟩, rfl, ?_⟩
    rcases uam with _ | ⟨p, t⟩
    · rcases uas with _ | ⟨p, t⟩
      · rcases uap with _ | ⟨p, t⟩
        · replace h : Except.ok { interfaces := interfaces,
                                  def_methods := dm,
                                  def_properties := dp,
                                  signal_proxies := sp } = Except.ok b := h
          simp only [Except.ok.injEq] at h
          subst h
          exact ⟨rfl, rfl, rfl, rfl, rfl, rfl⟩
        · replace h : Except.error (missingMsg HandlerType.property p) =
              Except.ok b := h
          exact Except.noConfusion h
      · replace h : Except.error (missingMsg HandlerType.signal p) =
            Except.ok b := h
        exact Except.noConfusion h
    · replace h : Except.error (missingMsg HandlerType.method p) =
          Except.ok b := h
      exact Except.noConfusion h

/-- A successful scan with emptied unassigned sets makes
`DBusTemplate.__call__` succeed with that scan's tables. -/
theorem DBusTemplate_call_ok_intro (interfaces : List InterfaceInfo)
    (members : List StandIn) (st : BindState)
    (hf : bindFold (buildKind MethodInfo.name InterfaceInfo.methods interfaces)
      (buildKind SignalInfo.name InterfaceInfo.signals interfaces)
      (buildKind PropertyInfo.name InterfaceInfo.properties interfaces)
      members (bindInit interfaces) = Except.ok st)
    (h1 : st.ua_methods = []) (h2 : st.ua_signals = [])
    (h3 : st.ua_properties = []) :
    DBusTemplate.call interfaces members =
      Except.ok { interfaces := interfaces, def_methods := st.def_methods,
                  def_properties := st.def_properties,
                  signal_proxies := st.signal_proxies } := by
  obtain ⟨uam, uas, uap, dm, dp, sp⟩ := st
  replace h1 : uam = [] := h1
  replace h2 : uas = [] := h2
  replace h3 : uap = [] := h3
  subst h1
  subst h2
  subst h3
  simp only [DBusTemplate.call]
  rw [hf]

/-- A class whose remaining stand-ins' targets exactly cover the remaining
unassigned sets scans successfully and empties them. -/
theorem bindFold_total (catM : KindCatalog MethodInfo)
    (catS : KindCatalog SignalInfo) (catP : KindCatalog PropertyInfo) :
    ∀ (members : List StandIn) (st : BindState),
      (∀ k, ∃ tl, kindTargets catM catS catP k members = some tl ∧
        tl.Perm (uaOfKind st k)) →
      (∀ k, (uaOfKind st k).Nodup) →
      ∃ st', bindFold catM catS catP members st = Except.ok st' ∧
        st'.ua_methods = [] ∧ st'.ua_signals = [] ∧ st'.ua_properties = [] := by
  intro members
  induction members with
  | nil =>
    intro st htl _
    refine ⟨st, rfl, ?_, ?_, ?_⟩
    · obtain ⟨tl, h1, h2⟩ := htl HandlerType.method
      simp only [kindTargets, Option.some.injEq] at h1
      subst h1
      exact h2.symm.eq_nil
    · obtain ⟨tl, h1, h2⟩ := htl HandlerType.signal
      simp only [kindTargets, Option.some.injEq] at h1
      subst h1
      exact h2.symm.eq_nil
    · obtain ⟨tl, h1, h2⟩ := htl HandlerType.property
      simp only [kindTargets, Option.some.injEq] at h1
      subst h1
      exact h2.symm.eq_nil
  | cons m rest ih =>
    intro st htl hnd
    cases hm : m.type with
    | method =>
      obtain ⟨tl, h1, h2⟩ := htl HandlerType.method
      rcases hts : standinTarget catM catS catP m with _ | p
      · simp [kindTargets, hm, hts] at h1
      · rcases hkt : kindTargets catM catS catP HandlerType.method rest with _ | tl2
        · simp [kindTargets, hm, hts, hkt] at h1
        · simp only [kindTargets, hm, if_true, hts, hkt, Option.some.injEq] at h1
          subst h1
          have hmem : p ∈ st.ua_methods := h2.mem_iff.mp (by simp)
          have hts' : resolveFull m catM.unique catM.infos = some p := by
            simpa [standinTarget, hm] using hts
          obtain ⟨rd', hps⟩ := process_standin_total m st.ua_methods catM.unique
            catM.infos (some st.def_methods) p hts' hmem
          have hstep : bindStep catM catS catP st m = Except.ok
              { st with ua_methods := st.ua_methods.erase p,
                        def_methods := rd'.getD st.def_methods } := by
            simp [bindStep, hm, hps]
          have htl' : ∀ k, ∃ tl, kindTargets catM catS catP k rest = some tl ∧
              tl.Perm (uaOfKind { st with ua_methods := st.ua_methods.erase p, def_methods := rd'.getD st.def_methods } k) := by
            intro k
            cases k with
            | method =>
              exact ⟨tl2, hkt, (h2.trans (perm_cons_erase_of_mem hmem)).cons_inv⟩
            | signal =>
              obtain ⟨tl0, hk0, hp0⟩ := htl HandlerType.signal
              refine ⟨tl0, ?_, hp0⟩
              have he : kindTargets catM catS catP HandlerType.signal (m :: rest) =
                  kindTargets catM catS catP HandlerType.signal rest := by
                simp [kindTargets, hm]
              rw [← he]
              exact hk0
            | property =>
              obtain ⟨tl0, hk0, hp0⟩ := htl HandlerType.property
              refine ⟨tl0, ?_, hp0⟩
              have he : kindTargets catM catS catP HandlerType.property (m :: rest) =
                  kindTargets catM catS catP HandlerType.property rest := by
                simp [kindTargets, hm]
              rw [← he]
              exact hk0
          have hnd' : ∀ k, (uaOfKind { st with ua_methods := st.ua_methods.erase p, def_methods := rd'.getD st.def_methods } k).Nodup := by
            intro k
            cases k with
            | method => exact List.Sublist.nodup (List.erase_sublist p st.ua_methods) (hnd HandlerType.method)
            | signal => exact hnd HandlerType.signal
            | property => exact hnd HandlerType.property
          obtain ⟨st', hfold, he1, he2, he3⟩ := ih _ htl' hnd'
          refine ⟨st', ?_, he1, he2, he3⟩
          rw [bindFold, hstep]
          exact hfold
    | signal =>
      obtain ⟨tl, h1, h2⟩ := htl HandlerType.signal
      rcases hts : standinTarget catM catS catP m with _ | p
      · simp [kindTargets, hm, hts] at h1
      · rcases hkt : kindTargets catM catS catP HandlerType.signal rest with _ | tl2
        · simp [kindTargets, hm, hts, hkt] at h1
        · simp only [kindTargets, hm, if_true, hts, hkt, Option.some.injEq] at h1
          subst h1
          have hmem : p ∈ st.ua_signals := h2.mem_iff.mp (by simp)
          have hts' : resolveFull m catS.unique catS.infos = some p := by
            simpa [standinTarget, hm] using hts
          obtain ⟨rd', hps⟩ := process_standin_total m st.ua_signals catS.unique
            catS.infos none p hts' hmem
          have hstep : bindStep catM catS catP st m = Except.ok
              { st with ua_signals := st.ua_signals.erase p,
                        signal_proxies := st.signal_proxies ++ [(p.1, m.name)] } := by
            simp [bindStep, hm, hps]
          have htl' : ∀ k, ∃ tl, kindTargets catM catS catP k rest = some tl ∧
              tl.Perm (uaOfKind { st with ua_signals := st.ua_signals.erase p, signal_proxies := st.signal_proxies ++ [(p.1, m.name)] } k) := by
            intro k
            cases k with
            | signal =>
              exact ⟨tl2, hkt, (h2.trans (perm_cons_erase_of_mem hmem)).cons_inv⟩
            | method =>
              obtain ⟨tl0, hk0, hp0⟩ := htl HandlerType.method
              refine ⟨tl0, ?_, hp0⟩
              have he : kindTargets catM catS catP HandlerType.method (m :: rest) =
                  kindTargets catM catS catP HandlerType.method rest := by
                simp [kindTargets, hm]
              rw [← he]
              exact hk0
            | property =>
              obtain ⟨tl0, hk0, hp0⟩ := htl HandlerType.property
              refine ⟨tl0, ?_, hp0⟩
              have he : kindTargets catM catS catP HandlerType.property (m :: rest) =
                  kindTargets catM catS catP HandlerType.property rest := by
                simp [kindTargets, hm]
              rw [← he]
              exact hk0
          have hnd' : ∀ k, (uaOfKind { st with ua_signals := st.ua_signals.erase p, signal_proxies := st.signal_proxies ++ [(p.1, m.name)] } k).Nodup := by
            intro k
            cases k with
            | signal => exact List.Sublist.nodup (List.erase_sublist p st.ua_signals) (hnd HandlerType.signal)
            | method => exact hnd HandlerType.method
            | property => exact hnd HandlerType.property
          obtain ⟨st', hfold, he1, he2, he3⟩ := ih _ htl' hnd'
          refine ⟨st', ?_, he1, he2, he3⟩
          rw [bindFold, hstep]
          exact hfold
    | property =>
      obtain ⟨tl, h1, h2⟩ := htl HandlerType.property
      rcases hts : standinTarget catM catS catP m with _ | p
      · simp [kindTargets, hm, hts] at h1
      · rcases hkt : kindTargets catM catS catP HandlerType.property rest with _ | tl2
        · simp [kindTargets, hm, hts, hkt] at h1
        · simp only [kindTargets, hm, if_true, hts, hkt, Option.some.injEq] at h1
          subst h1
          have hmem : p ∈ st.ua_properties := h2.mem_iff.mp (by simp)
          have hts' : resolveFull m catP.unique catP.infos = some p := by
            simpa [standinTarget, hm] using hts
          obtain ⟨rd', hps⟩ := process_standin_total m st.ua_properties catP.unique
            catP.infos (some st.def_properties) p hts' hmem
          have hstep : bindStep catM catS catP st m = Except.ok
              { st with ua_properties := st.ua_properties.erase p,
                        def_properties := rd'.getD st.def_properties } := by
            simp [bindStep, hm, hps]
          have htl' : ∀ k, ∃ tl, kindTargets catM catS catP k rest = some tl ∧
              tl.Perm (uaOfKind { st with ua_properties := st.ua_properties.erase p, def_properties := rd'.getD st.def_properties } k) := by
            intro k
            cases k with
            | property =>
              exact ⟨tl2, hkt, (h2.trans (perm_cons_erase_of_mem hmem)).cons_inv⟩
            | method =>
              obtain ⟨tl0, hk0, hp0⟩ := htl HandlerType.method
              refine ⟨tl0, ?_, hp0⟩
              have he : kindTargets catM catS catP HandlerType.method (m :: rest) =
                  kindTargets catM catS catP HandlerType.method rest := by
                simp [kindTargets, hm]
              rw [← he]
              exact hk0
            | signal =>
              obtain ⟨tl0, hk0, hp0⟩ := htl HandlerType.signal
              refine ⟨tl0, ?_, hp0⟩
              have he : kindTargets catM catS catP HandlerType.signal (m :: rest) =
                  kindTargets catM catS catP HandlerType.signal rest := by
                simp [kindTargets, hm]
              rw [← he]
              exact hk0
          have hnd' : ∀ k, (uaOfKind { st with ua_properties := st.ua_properties.erase p, def_properties := rd'.getD st.def_properties } k).Nodup := by
            intro k
            cases k with
            | property => exact List.Sublist.nodup (List.erase_sublist p st.ua_properties) (hnd HandlerType.property)
            | method => exact hnd HandlerType.method
            | signal => exact hnd HandlerType.signal
          obtain ⟨st', hfold, he1, he2, he3⟩ := ih _ htl' hnd'
          refine ⟨st', ?_, he1, he2, he3⟩
          rw [bindFold, hstep]
          exact hfold

/-- C2: class binding is an exact bijection between schema members and
handlers. (1) When `DBusTemplate.__call__` succeeds, the stored dispatch
tables hold exactly one entry per declared method, signal and property.
(2) Success also means every stand-in resolved and no two stand-ins of a
kind resolved to the same `(interface, member)` pair — so a class with two
handlers for one pair can never bind. (3) A declared member no stand-in
resolves to makes binding fail. (4) When every stand-in processes but the
completeness check fails, the raised error names a declared member that
really has no handler. (5) A fully-implementing class — whose stand-ins'
targets are exactly the declared members of each kind — binds
successfully. -/
theorem C2_binding_bijection (interfaces : List InterfaceInfo)
    (members : List StandIn)
    (hnodupI : (interfaces.map InterfaceInfo.name).Nodup)
    (hndM : ∀ i ∈ interfaces, ((i.methods).map MethodInfo.name).Nodup)
    (hndS : ∀ i ∈ interfaces, ((i.signals).map SignalInfo.name).Nodup)
    (hndP : ∀ i ∈ interfaces, ((i.properties).map PropertyInfo.name).Nodup) :
    (∀ b, DBusTemplate.call interfaces members = Except.ok b →
      (collect_unassigned b.def_methods).Perm
        (declaredOfKind interfaces HandlerType.method) ∧
      (b.signal_proxies).Perm (declaredOfKind interfaces HandlerType.signal) ∧
      (collect_unassigned b.def_properties).Perm
        (declaredOfKind interfaces HandlerType.property) ∧
      (collect_unassigned b.def_methods).Nodup ∧
      (b.signal_proxies).Nodup ∧
      (collect_unassigned b.def_properties).Nodup)
    ∧ (∀ b, DBusTemplate.call interfaces members = Except.ok b →
      ∀ k, ∃ tl,
        kindTargets (buildKind MethodInfo.name InterfaceInfo.methods interfaces)
          (buildKind SignalInfo.name InterfaceInfo.signals interfaces)
          (buildKind PropertyInfo.name InterfaceInfo.properties interfaces)
          k members = some tl ∧ tl.Nodup)
    ∧ (∀ k p, p ∈ declaredOfKind interfaces k →
      (¬ ∃ s ∈ members, s.type = k ∧
        standinTarget (buildKind MethodInfo.name InterfaceInfo.methods interfaces)
          (buildKind SignalInfo.name InterfaceInfo.signals interfaces)
          (buildKind PropertyInfo.name InterfaceInfo.properties interfaces)
          s = some p) →
      ∀ b, DBusTemplate.call interfaces members ≠ Except.ok b)
    ∧ (∀ st e,
      bindFold (buildKind MethodInfo.name InterfaceInfo.methods interfaces)
        (buildKind SignalInfo.name InterfaceInfo.signals interfaces)
        (buildKind PropertyInfo.name InterfaceInfo.properties interfaces)
        members (bindInit interfaces) = Except.ok st →
      DBusTemplate.call interfaces members = Except.error e →
      ∃ k p, p ∈ declaredOfKind interfaces k ∧
        (¬ ∃ s ∈ members, s.type = k ∧
          standinTarget (buildKind MethodInfo.name InterfaceInfo.methods interfaces)
            (buildKind SignalInfo.name InterfaceInfo.signals interfaces)
            (buildKind PropertyInfo.name InterfaceInfo.properties interfaces)
            s = some p) ∧
        e = missingMsg k p)
    ∧ ((∀ k, ∃ tl,
        kindTargets (buildKind MethodInfo.name InterfaceInfo.methods interfaces)
          (buildKind SignalInfo.name InterfaceInfo.signals interfaces)
          (buildKind PropertyInfo.name InterfaceInfo.properties interfaces)
          k members = some tl ∧ tl.Perm (declaredOfKind interfaces k)) →
      ∃ b, DBusTemplate.call interfaces members = Except.ok b) := by
  have hdecl : ∀ k, (declaredOfKind interfaces k).Nodup := by
    intro k
    cases k with
    | method => exact declaredPairs_nodup MethodInfo.name InterfaceInfo.methods interfaces hnodupI hndM
    | signal => exact declaredPairs_nodup SignalInfo.name InterfaceInfo.signals interfaces hnodupI hndS
    | property => exact declaredPairs_nodup PropertyInfo.name InterfaceInfo.properties interfaces hnodupI hndP
  have hInv0 := bindInv_init interfaces hnodupI hndM hndS hndP
  have hua0 : ∀ k, uaOfKind (bindInit interfaces) k = declaredOfKind interfaces k := by
    intro k
    cases k with
    | method => exact collect_unassigned_buildKind MethodInfo.name InterfaceInfo.methods interfaces hnodupI hndM
    | signal => exact collect_unassigned_buildKind SignalInfo.name InterfaceInfo.signals interfaces hnodupI hndS
    | property => exact collect_unassigned_buildKind PropertyInfo.name InterfaceInfo.properties interfaces hnodupI hndP
  have hmain : ∀ b, DBusTemplate.call interfaces members = Except.ok b →
      ∀ k, ∃ tl,
        kindTargets (buildKind MethodInfo.name InterfaceInfo.methods interfaces)
          (buildKind SignalInfo.name InterfaceInfo.signals interfaces)
          (buildKind PropertyInfo.name InterfaceInfo.properties interfaces)
          k members = some tl ∧
        (boundOfKind' b k).Perm tl ∧
        (boundOfKind' b k).Perm (declaredOfKind interfaces k) := by
    intro b hcall k
    obtain ⟨st, hf, hm0, hs0, hp0, hbm, hbp, hbs⟩ :=
      DBusTemplate_call_ok_elim interfaces members b hcall
    have hInv := bindFold_inv (buildKind MethodInfo.name InterfaceInfo.methods interfaces)
      (buildKind SignalInfo.name InterfaceInfo.signals interfaces)
      (buildKind PropertyInfo.name InterfaceInfo.properties interfaces)
      interfaces hdecl members [] (bindInit interfaces) st hInv0 hf
    simp only [List.nil_append] at hInv
    obtain ⟨tl, hkt, hbound, hpart⟩ := hInv k
    have hb : boundOfKind' b k = boundOfKind st k := by
      cases k with
      | method => simp only [boundOfKind', boundOfKind, hbm]
      | signal => simp only [boundOfKind', boundOfKind, hbs]
      | property => simp only [boundOfKind', boundOfKind, hbp]
    have hua : uaOfKind st k = [] := by
      cases k with
      | method => exact hm0
      | signal => exact hs0
      | property => exact hp0
    rw [hua, List.nil_append] at hpart
    exact ⟨tl, hkt, hb ▸ hbound, hb ▸ hpart⟩
  refine ⟨?_, ?_, ?_, ?_, ?_⟩
  · intro b hcall
    obtain ⟨tlm, _, _, h1⟩ := hmain b hcall HandlerType.method
    obtain ⟨tls, _, _, h2⟩ := hmain b hcall HandlerType.signal
    obtain ⟨tlp, _, _, h3⟩ := hmain b hcall HandlerType.property
    exact ⟨h1, h2, h3,
      h1.nodup_iff.mpr (hdecl HandlerType.method),
      h2.nodup_iff.mpr (hdecl HandlerType.signal),
      h3.nodup_iff.mpr (hdecl HandlerType.property)⟩
  · intro b hcall k
    obtain ⟨tl, hkt, hbound, hpartb⟩ := hmain b hcall k
    refine ⟨tl, hkt, ?_⟩
    exact (hbound.symm.trans hpartb).nodup_iff.mpr (hdecl k)
  · intro k p hp hnone b hcall
    obtain ⟨tl, hkt, hbound, hpartb⟩ := hmain b hcall k
    have hpb : p ∈ boundOfKind' b k := hpartb.symm.mem_iff.mp hp
    have hptl : p ∈ tl := hbound.mem_iff.mp hpb
    obtain ⟨s, hs1, hs2, hs3⟩ :=
      (kindTargets_mem _ _ _ k members tl hkt p).mp hptl
    exact hnone ⟨s, hs1, hs2, hs3⟩
  · intro st e hf hcall
    have hInv := bindFold_inv (buildKind MethodInfo.name InterfaceInfo.methods interfaces)
      (buildKind SignalInfo.name InterfaceInfo.signals interfaces)
      (buildKind PropertyInfo.name InterfaceInfo.properties interfaces)
      interfaces hdecl members [] (bindInit interfaces) st hInv0 hf
    simp only [List.nil_append] at hInv
    simp only [DBusTemplate.call] at hcall
    rw [hf] at hcall
    obtain ⟨uam, uas, uap, dm, dp, sp⟩ := st
    have hgen : ∀ (k : HandlerType) (q : String × String),
        q ∈ uaOfKind ⟨uam, uas, uap, dm, dp, sp⟩ k →
        q ∈ declaredOfKind interfaces k ∧
        ¬ ∃ s ∈ members, s.type = k ∧
          standinTarget (buildKind MethodInfo.name InterfaceInfo.methods interfaces)
            (buildKind SignalInfo.name InterfaceInfo.signals interfaces)
            (buildKind PropertyInfo.name InterfaceInfo.properties interfaces)
            s = some q := by
      intro k q hq
      obtain ⟨tl, hkt, hbound, hpart⟩ := hInv k
      have hnd2 : (uaOfKind ⟨uam, uas, uap, dm, dp, sp⟩ k ++
          boundOfKind ⟨uam, uas, uap, dm, dp, sp⟩ k).Nodup :=
        hpart.nodup_iff.mpr (hdecl k)
      refine ⟨hpart.mem_iff.mp (List.mem_append_left _ hq), ?_⟩
      rintro ⟨s, hs1, hs2, hs3⟩
      have hqtl : q ∈ tl :=
        (kindTargets_mem _ _ _ k members tl hkt q).mpr ⟨s, hs1, hs2, hs3⟩
      have hqb : q ∈ boundOfKind ⟨uam, uas, uap, dm, dp, sp⟩ k :=
        hbound.mem_iff.mpr hqtl
      exact (List.disjoint_of_nodup_append hnd2) hq hqb
    rcases uam with _ | ⟨q, t⟩
    · rcases uas with _ | ⟨q, t⟩
      · rcases uap with _ | ⟨q, t⟩
        · replace hcall : Except.ok ({ interfaces := interfaces,
                                       def_methods := dm,
                                       def_properties := dp,
                                       signal_proxies := sp } : BindResult) =
              Except.error e := hcall
          exact Except.noConfusion hcall
        · replace hcall : Except.error (missingMsg HandlerType.property q) =
              Except.error e := hcall
          obtain ⟨h1, h2⟩ := hgen HandlerType.property q (by simp [uaOfKind])
          exact ⟨HandlerType.property, q, h1, h2,
            (Except.error.injEq _ _).mp hcall.symm⟩
      · replace hcall : Except.error (missingMsg HandlerType.signal q) =
            Except.error e := hcall
        obtain ⟨h1, h2⟩ := hgen HandlerType.signal q (by simp [uaOfKind])
        exact ⟨HandlerType.signal, q, h1, h2,
          (Except.error.injEq _ _).mp hcall.symm⟩
    · replace hcall : Except.error (missingMsg HandlerType.method q) =
          Except.error e := hcall
      obtain ⟨h1, h2⟩ := hgen HandlerType.method q (by simp [uaOfKind])
      exact ⟨HandlerType.method, q, h1, h2,
        (Except.error.injEq _ _).mp hcall.symm⟩
  · intro htl
    obtain ⟨st', hfold, h1, h2, h3⟩ := bindFold_total
      (buildKind MethodInfo.name InterfaceInfo.methods interfaces)
      (buildKind SignalInfo.name InterfaceInfo.signals interfaces)
      (buildKind PropertyInfo.name InterfaceInfo.properties interfaces)
      members (bindInit interfaces)
      (by
        intro k
        obtain ⟨tl, hkt, hperm⟩ := htl k
        exact ⟨tl, hkt, (hua0 k) ▸ hperm⟩)
      (by
        intro k
        rw [hua0 k]
        exact hdecl k)
    exact ⟨_, DBusTemplate_call_ok_intro interfaces members st' hfold h1 h2 h3⟩

/-- Witness for C2 on a concrete one-interface schema: the fully
implementing class binds to exactly one entry per declared member, a class
missing the property handler fails naming it, and a class with two
handlers for `Do` fails with the duplicate-handler error. -/
theorem C2_binding_bijection_witness :
    DBusTemplate.call [ifaceFull] fullMembers = Except.ok fullBindResult
    ∧ (collect_unassigned fullBindResult.def_methods).Perm
        (declaredOfKind [ifaceFull] HandlerType.method)
    ∧ fullBindResult.signal_proxies.Perm
        (declaredOfKind [ifaceFull] HandlerType.signal)
    ∧ (collect_unassigned fullBindResult.def_properties).Perm
        (declaredOfKind [ifaceFull] HandlerType.property)
    ∧ DBusTemplate.call [ifaceFull] [memberDo, memberChanged] =
        Except.error (missingMsg HandlerType.property ("org.example.F", "Count"))
    ∧ DBusTemplate.call [ifaceFull]
        [memberDo, { memberDo with funcId := 9 }, memberChanged, memberCount] =
        Except.error ("D-Bus method Do has a handler method but is either not in the XML or there are multiple handlers defined for it in class") := by
  have hcall : DBusTemplate.call [ifaceFull] fullMembers =
      Except.ok fullBindResult := rfl
  have h := (C2_binding_bijection [ifaceFull] fullMembers
    (by decide) (by decide) (by decide) (by decide)).1 fullBindResult hcall
  exact ⟨hcall, h.1, h.2.1, h.2.2.1, rfl, rfl⟩

end GDBus
